import Mathlib

/-!
# b.trade backend (`server.js`): aggregation engine

A shallow embedding of the aggregation code of `server.js`: the three provider
normalisers (`processDexPair`, the GeckoTerminal pool mapping, the pump.fun coin
mapping), the merge / dedup / sort / cap of `fetchAllData`, the time-bounded
cache in front of it and the periodic tick that calls it.

Conventions of the embedding:

* a JavaScript number is `JSNum`: `NaN` or the exact rational a finite double
  denotes (rounding and the two infinities of IEEE arithmetic are not modelled);
* a JSON scalar is `JSVal`; nested objects are flattened into the record
  structures (`p.baseToken?.address` is the field `baseTokenAddress`, which is
  `undefined` when `baseToken` or its `address` is missing);
* string parsing builtins (`parseFloat`, `ToNumber` and `Date` on strings, and
  number-to-string conversion) are not part of the repository and are taken as
  parameters, bundled in `Builtins`;
* a promise that has settled, and a callback that returns or throws, is an
  `Except`: `.ok v` resolved or returned, `.error e` rejected or thrown.
-/

namespace BTrade

/-! ## JavaScript values -/

/-- A JavaScript number: `NaN`, or a finite value. -/
inductive JSNum where
  | nan : JSNum
  | fin (q : ℚ) : JSNum
  deriving DecidableEq, Repr

/-- A JSON scalar as the adapters read it from a provider payload. -/
inductive JSVal where
  | undefined : JSVal
  | null : JSVal
  | bool (b : Bool) : JSVal
  | num (n : JSNum) : JSVal
  | str (s : String) : JSVal
  deriving DecidableEq, Repr

/-- String builtins of the JavaScript runtime, which the repository calls but does
not define. -/
structure Builtins where
  /-- The value of `parseFloat(s)` for a string `s`. -/
  parseFloatStr : String → JSNum
  /-- The value of `ToNumber(s)` for a string `s` (used by `-`, `/`). -/
  toNumberStr : String → JSNum
  /-- The value of `new Date(s).getTime()` for a string `s`. -/
  dateParseStr : String → JSNum
  /-- The value of `ToString(n)` for a number `n` (used by template strings). -/
  numToString : JSNum → String

namespace JSNum

/-- Truthiness of a number: `NaN` and `0` are falsy. -/
def truthy : JSNum → Bool
  | nan => false
  | fin q => decide (q ≠ 0)

/-- The JavaScript `a - b` on numbers. -/
def sub : JSNum → JSNum → JSNum
  | fin a, fin b => fin (a - b)
  | _, _ => nan

/-- The JavaScript `a / b` on numbers, for a non-zero finite divisor `b`. -/
def divConst (a : JSNum) (b : ℚ) : JSNum :=
  match a with
  | fin q => fin (q / b)
  | nan => nan

/-- The JavaScript `a * b` on numbers, for a finite factor `b`. -/
def mulConst (a : JSNum) (b : ℚ) : JSNum :=
  match a with
  | fin q => fin (q * b)
  | nan => nan

/-- The value of `Math.min(a, b)` for a finite `b`: `NaN` when `a` is `NaN`. -/
def minConst (a : JSNum) (b : ℚ) : JSNum :=
  match a with
  | fin q => fin (min q b)
  | nan => nan

/-- The JavaScript `a >= b` for a finite `b`: false when `a` is `NaN`. -/
def geConst (a : JSNum) (b : ℚ) : Bool :=
  match a with
  | fin q => decide (b ≤ q)
  | nan => false

/-- The value of `x || 0` for a number `x`. -/
def orZero (a : JSNum) : JSNum := if a.truthy then a else fin 0

end JSNum

namespace JSVal

/-- The JavaScript `ToBoolean`. -/
def truthy : JSVal → Bool
  | undefined => false
  | null => false
  | bool b => b
  | num n => n.truthy
  | str s => decide (s ≠ "")

/-- The value of `a || b`. -/
def or (a b : JSVal) : JSVal := if a.truthy then a else b

/-- The JavaScript `ToNumber`. -/
def toNumber (js : Builtins) : JSVal → JSNum
  | undefined => JSNum.nan
  | null => JSNum.fin 0
  | bool b => JSNum.fin (if b then 1 else 0)
  | num n => n
  | str s => js.toNumberStr s

/-- The JavaScript `ToString`. -/
def toStr (js : Builtins) : JSVal → String
  | undefined => "undefined"
  | null => "null"
  | bool b => if b then "true" else "false"
  | num n => js.numToString n
  | str s => s

/-- The builtin `parseFloat(v)`: the argument is converted to a string and a
leading decimal literal is read. A number reads back as itself; `undefined`,
`null` and the booleans have no numeric prefix. -/
def parseFloat (js : Builtins) : JSVal → JSNum
  | undefined => JSNum.nan
  | null => JSNum.nan
  | bool _ => JSNum.nan
  | num n => n
  | str s => js.parseFloatStr s

/-- The strict equality `a === b`: as structural equality, except that `NaN` is
not equal to itself. -/
def strictEq (a b : JSVal) : Bool :=
  decide (a = b) && decide (a ≠ num JSNum.nan)

end JSVal

/-! ## The canonical listing -/

/-- The object every adapter emits. `age` is `null` (`none`) or a number in all
three adapters; `change24h` is absent (`undefined`) in pump.fun listings. -/
structure Coin where
  symbol : JSVal
  name : JSVal
  address : JSVal
  price : JSNum
  mcap : JSVal
  progress : JSNum
  graduated : JSVal
  isKing : Bool
  replies : JSVal
  image : JSVal
  created : JSVal
  age : Option JSNum
  url : String
  volume24h : JSNum
  liquidity : JSNum
  change24h : JSVal
  dex : JSVal
  deriving DecidableEq, Repr

/-- A settled promise: resolved with a value or rejected with a message. -/
abbrev Settled (α : Type) := Except String α

deriving instance DecidableEq for Except

/-! ## String helpers of the GeckoTerminal mapping -/

/-- The call `s.includes(sub)`. -/
def includes (s sub : String) : Bool := decide (sub.data <:+: s.data)

/-- The expression `s.split(sep)[0]`: the part of `s` in front of the first `sep`. -/
def firstSegment (s : String) (sep : Char) : String :=
  String.mk (s.data.takeWhile (fun c => c ≠ sep))

/-- The expression `s.split(sep).pop()`: the part of `s` behind the last `sep`. -/
def lastSegment (s : String) (sep : Char) : String :=
  String.mk (s.data.reverse.takeWhile (fun c => c ≠ sep)).reverse

/-- White space and line terminators of ECMAScript, by code point. -/
def isJSWhiteSpace (c : Char) : Bool :=
  decide (c.toNat ∈ [0x09, 0x0A, 0x0B, 0x0C, 0x0D, 0x20, 0xA0, 0x1680, 0x2028, 0x2029,
    0x202F, 0x205F, 0x3000, 0xFEFF]) || (decide (0x2000 ≤ c.toNat) && decide (c.toNat ≤ 0x200A))

/-- The call `s.trim()`. -/
def jsTrim (s : String) : String :=
  String.mk ((s.data.dropWhile isJSWhiteSpace).reverse.dropWhile isJSWhiteSpace).reverse

/-- The abstract operation TimeClip on a finite time value. -/
def timeClip (q : ℚ) : JSNum :=
  if |q| > 8640000000000000 then JSNum.nan
  else JSNum.fin (if 0 ≤ q then (⌊q⌋ : ℤ) else (⌈q⌉ : ℤ))

/-- The expression `new Date(v).getTime()`. -/
def dateGetTime (js : Builtins) : JSVal → JSNum
  | JSVal.str s => js.dateParseStr s
  | JSVal.num (JSNum.fin q) => timeClip q
  | JSVal.num JSNum.nan => JSNum.nan
  | JSVal.bool b => JSNum.fin (if b then 1 else 0)
  | JSVal.null => JSNum.fin 0
  | JSVal.undefined => JSNum.nan

/-! ## The three normalisers -/

/-- The graduation market cap, the literal `69000` of all three adapters. -/
def GRADUATION_MCAP : ℚ := 69000

/-- The expression `Math.min((mcap / 69000) * 100, 100)`. -/
def progressOf (mcap : JSNum) : JSNum :=
  ((mcap.divConst GRADUATION_MCAP).mulConst 100).minConst 100

/-- A DexScreener pair `p`, with the fields the adapter reads. -/
structure DexPair where
  chainId : JSVal
  dexId : JSVal
  pairAddress : JSVal
  pairCreatedAt : JSVal
  fdv : JSVal
  priceUsd : JSVal
  baseTokenSymbol : JSVal
  baseTokenName : JSVal
  baseTokenAddress : JSVal
  infoImageUrl : JSVal
  volumeH24 : JSVal
  liquidityUsd : JSVal
  priceChangeH24 : JSVal
  deriving DecidableEq, Repr

/-- The function `processDexPair(p, now)`. -/
def processDexPair (js : Builtins) (p : DexPair) (now : Int) : Coin :=
  let age : Option JSNum :=
    if p.pairCreatedAt.truthy then some ((JSNum.fin now).sub (p.pairCreatedAt.toNumber js))
    else none
  let mcap : JSNum := (p.fdv.parseFloat js).orZero
  let graduated : Bool :=
    p.dexId.strictEq (JSVal.str "raydium") || mcap.geConst GRADUATION_MCAP
  { symbol := p.baseTokenSymbol.or (JSVal.str "???")
    name := p.baseTokenName.or (JSVal.str "")
    address := p.baseTokenAddress.or (JSVal.str "")
    price := (p.priceUsd.parseFloat js).orZero
    mcap := JSVal.num mcap
    progress := progressOf mcap
    graduated := JSVal.bool graduated
    isKing := false
    replies := JSVal.num (JSNum.fin 0)
    image := p.infoImageUrl.or JSVal.null
    created := p.pairCreatedAt.or (JSVal.num (JSNum.fin now))
    age := age
    url := "https://dexscreener.com/solana/" ++ p.pairAddress.toStr js
    volume24h := if p.volumeH24.truthy then p.volumeH24.parseFloat js else JSNum.fin 0
    liquidity := if p.liquidityUsd.truthy then p.liquidityUsd.parseFloat js else JSNum.fin 0
    change24h :=
      JSVal.num (if p.priceChangeH24.truthy then p.priceChangeH24.parseFloat js else JSNum.fin 0)
    dex := p.dexId }

/-- A GeckoTerminal pool, with the fields the adapter reads: `id` is `pool.id`,
`dexDataId` is `pool.relationships?.dex?.data?.id`, the others are fields of
`pool.attributes`. -/
structure GeckoPool where
  id : JSVal
  dexDataId : JSVal
  name : JSVal
  pool_created_at : JSVal
  fdv_usd : JSVal
  base_token_price_usd : JSVal
  volumeUsdH24 : JSVal
  reserve_in_usd : JSVal
  priceChangePercentageH24 : JSVal
  deriving DecidableEq, Repr

/-- The venue a pool is mapped to: `'pumpfun'`, `'raydium'` or `''`. A truthy
`dexData.id` that is not a string has no `includes` method, and the call throws. -/
def geckoDexId (pool : GeckoPool) : Settled String :=
  match pool.dexDataId with
  | JSVal.str s =>
    if s = "" then pure ""
    else if includes s "pump" then pure "pumpfun"
    else if includes s "raydium" then pure "raydium"
    else pure ""
  | v => if v.truthy then throw "dexData.id.includes is not a function" else pure ""

/-- The body of the `forEach` callback of `fetchGeckoTerminal` up to the object
it would push: `none` when the callback returns early (`!dexId`), an error when it
throws. Whether the object is pushed is decided by the caller's `existing` check. -/
def geckoPoolCoin (js : Builtins) (pool : GeckoPool) (now : Int) : Settled (Option Coin) := do
  let dexId ← geckoDexId pool
  if dexId = "" then pure none
  else
    let age : Option JSNum :=
      if pool.pool_created_at.truthy then
        some ((JSNum.fin now).sub (dateGetTime js pool.pool_created_at))
      else none
    let name ← match pool.name.or (JSVal.str "") with
      | JSVal.str s => pure s
      | _ => throw "name.split is not a function"
    let symbol : JSVal :=
      ((JSVal.str (jsTrim (firstSegment name '/'))).or
        (JSVal.str (firstSegment name ' '))).or (JSVal.str "???")
    let addr ← match pool.id with
      | JSVal.undefined => pure ""
      | JSVal.null => pure ""
      | JSVal.str s => pure (lastSegment s '_')
      | _ => throw "pool.id.split is not a function"
    let mcap : JSNum := (pool.fdv_usd.parseFloat js).orZero
    pure (some
      { symbol := symbol
        name := JSVal.str name
        address := JSVal.str addr
        price := (pool.base_token_price_usd.parseFloat js).orZero
        mcap := JSVal.num mcap
        progress := progressOf mcap
        graduated := JSVal.bool (decide (dexId = "raydium") || mcap.geConst GRADUATION_MCAP)
        isKing := false
        replies := JSVal.num (JSNum.fin 0)
        image := JSVal.null
        created :=
          if pool.pool_created_at.truthy then JSVal.num (dateGetTime js pool.pool_created_at)
          else JSVal.num (JSNum.fin now)
        age := age
        url := "https://www.geckoterminal.com/solana/pools/" ++ addr
        volume24h :=
          if pool.volumeUsdH24.truthy then pool.volumeUsdH24.parseFloat js else JSNum.fin 0
        liquidity := (pool.reserve_in_usd.parseFloat js).orZero
        change24h :=
          JSVal.num (if pool.priceChangePercentageH24.truthy
            then pool.priceChangePercentageH24.parseFloat js else JSNum.fin 0)
        dex := JSVal.str dexId })

/-- A pump.fun coin `c`, with the fields the adapter reads. -/
structure PumpCoin where
  symbol : JSVal
  name : JSVal
  mint : JSVal
  price : JSVal
  usd_market_cap : JSVal
  complete : JSVal
  raydium_pool : JSVal
  reply_count : JSVal
  image_uri : JSVal
  created_timestamp : JSVal
  deriving DecidableEq, Repr

/-- The callback of `data.map` in `fetchPumpFun`. -/
def pumpFunCoin (js : Builtins) (c : PumpCoin) (now : Int) : Coin :=
  let mcap : JSVal := c.usd_market_cap.or (JSVal.num (JSNum.fin 0))
  { symbol := c.symbol.or (JSVal.str "???")
    name := c.name.or (JSVal.str "")
    address := c.mint.or (JSVal.str "")
    price := (c.price.parseFloat js).orZero
    mcap := mcap
    progress := progressOf (mcap.toNumber js)
    graduated := (c.complete.or c.raydium_pool).or (JSVal.bool false)
    isKing := false
    replies := c.reply_count.or (JSVal.num (JSNum.fin 0))
    image := c.image_uri.or JSVal.null
    created := c.created_timestamp.or (JSVal.num (JSNum.fin now))
    age :=
      if c.created_timestamp.truthy then
        some ((JSNum.fin now).sub (c.created_timestamp.toNumber js))
      else some (JSNum.fin 0)
    url := "https://pump.fun/coin/" ++ c.mint.toStr js
    volume24h := JSNum.fin 0
    liquidity := JSNum.fin 0
    change24h := JSVal.undefined
    dex := JSVal.str "pumpfun" }

/-! ## `fetchAllData`: merge, sort, cap -/

/-- The two accumulators of the merge loop: the `seen` set of addresses and the
`coins` array. -/
structure MergeState where
  seen : List JSVal
  coins : List Coin

/-- One iteration of the `forEach` of `fetchAllData`: an entry whose address
is not in `seen` is recorded and pushed; any other entry is dropped. `Set.has`
compares with SameValueZero, which on `JSVal` is equality. -/
def mergeStep (st : MergeState) (c : Coin) : MergeState :=
  if c.address ∈ st.seen then st
  else { seen := c.address :: st.seen, coins := st.coins ++ [c] }

/-- The merge loop over `[...dexCoins, ...geckoCoins, ...pumpCoins_]`, started
with an empty set and an empty array. -/
def mergeCoins (all : List Coin) : List Coin :=
  (all.foldl mergeStep { seen := [], coins := [] }).coins

/-- The value of `c.age || Infinity`, with `⊤` for `Infinity`: `null`, `NaN` and
`0` are falsy. -/
def ageOrInfinity : Option JSNum → WithTop ℚ
  | some (JSNum.fin q) => if q = 0 then ⊤ else (q : WithTop ℚ)
  | some JSNum.nan => ⊤
  | none => ⊤

/-- What `Array.prototype.sort` reads off a comparator result. -/
inductive CmpSign where
  | negative : CmpSign
  | zero : CmpSign
  | positive : CmpSign
  deriving DecidableEq, Repr

/-- The comparator `(a, b) => (a.age || Infinity) - (b.age || Infinity)`.
`Infinity - Infinity` is `NaN`, which `sort` reads as `+0`. -/
def compareAge (a b : Coin) : CmpSign :=
  match ageOrInfinity a.age, ageOrInfinity b.age with
  | none, none => CmpSign.zero
  | some _, none => CmpSign.negative
  | none, some _ => CmpSign.positive
  | some x, some y =>
    if x - y < 0 then CmpSign.negative
    else if x - y = 0 then CmpSign.zero
    else CmpSign.positive

/-- Entry `a` may stay in front of `b`: the comparator does not ask for a swap. -/
def notAfter (a b : Coin) : Prop := compareAge a b ≠ CmpSign.positive

instance : DecidableRel notAfter := fun a b =>
  inferInstanceAs (Decidable (compareAge a b ≠ CmpSign.positive))

/-- The call `coins.sort(comparator)`. The comparator is consistent on ages that
are `null` or numbers, so the result is the stable sort, here by insertion. -/
def sortCoins (coins : List Coin) : List Coin :=
  List.insertionSort notAfter coins

/-- The cap of `coins.slice(0, 150)`. -/
def MAX_COINS : Nat := 150

/-- Merge, sort and cap: what a refresh computes from the three arrays. -/
def mergeSortCap (dexCoins geckoCoins pumpCoins_ : List Coin) : List Coin :=
  (sortCoins (mergeCoins (dexCoins ++ geckoCoins ++ pumpCoins_))).take MAX_COINS

/-! ## Promises, cache and scheduler -/

/-- The handler `.catch(() => [])`: a rejection becomes the empty array. -/
def catchEmpty (r : Settled (List Coin)) : Settled (List Coin) :=
  match r with
  | .ok v => .ok v
  | .error _ => .ok []

/-- The call `Promise.all([a, b, c])`: rejects as soon as one member rejects. -/
def promiseAll3 {α : Type} (a b c : Settled α) : Settled (α × α × α) := do
  let x ← a
  let y ← b
  let z ← c
  pure (x, y, z)

/-- The cache window in milliseconds. -/
def CACHE_DURATION : Int := 5000

/-- The module-level cache variables. -/
structure Cache where
  pumpCoins : List Coin
  lastFetch : Int
  deriving DecidableEq, Repr

/-- The state of the module when it is loaded. -/
def Cache.initial : Cache := { pumpCoins := [], lastFetch := 0 }

/-- The three adapters. -/
inductive Adapter where
  | fetchDexScreener : Adapter
  | fetchGeckoTerminal : Adapter
  | fetchPumpFun : Adapter
  deriving DecidableEq, Repr

/-- What one call of `fetchAllData` does: the array it resolves with, the cache
variables afterwards and the adapters it called. -/
structure Outcome where
  returned : List Coin
  cache : Cache
  invoked : List Adapter
  deriving DecidableEq, Repr

/-- The part of `fetchAllData` after the cache check. The arguments `dex`,
`gecko` and `pump` are how the three adapter promises settle. -/
def refresh (now : Int) (dex gecko pump : Settled (List Coin)) : Settled Outcome := do
  let (dexCoins, geckoCoins, pumpCoins_) ←
    promiseAll3 (catchEmpty dex) (catchEmpty gecko) (catchEmpty pump)
  let pumpCoins := mergeSortCap dexCoins geckoCoins pumpCoins_
  pure { returned := pumpCoins
         cache := { pumpCoins := pumpCoins, lastFetch := now }
         invoked := [Adapter.fetchDexScreener, Adapter.fetchGeckoTerminal,
           Adapter.fetchPumpFun] }

/-- The function `fetchAllData`, called at time `now` in cache state `s`. -/
def fetchAllData (s : Cache) (now : Int) (dex gecko pump : Settled (List Coin)) :
    Settled Outcome :=
  if now - s.lastFetch < CACHE_DURATION ∧ s.pumpCoins.length > 0 then
    pure { returned := s.pumpCoins, cache := s, invoked := [] }
  else
    refresh now dex gecko pump

/-- What one run of the `setInterval` callback does: the outcome of its
`fetchAllData` call and the coins it broadcasts, if it broadcasts. -/
structure TickOutcome where
  fetched : Outcome
  broadcast : Option (List Coin)
  deriving DecidableEq, Repr

/-- The `setInterval` callback, run at time `now` with `clients` open sockets. -/
def tick (s : Cache) (now : Int) (dex gecko pump : Settled (List Coin)) (clients : Nat) :
    Settled TickOutcome := do
  let r ← fetchAllData s now dex gecko pump
  pure { fetched := r
         broadcast := if clients > 0 then some r.cache.pumpCoins else none }

/-! ## `fetchJSON` -/

/-- How one request of `fetchJSON` ends: the request emits `'error'`, or a response
arrives and its body (gunzipped when `gzip`, that is when the response declares
`content-encoding: gzip`) is collected into `data`. -/
inductive Attempt where
  | transportError (e : String) : Attempt
  | response (gzip : Bool) (data : String) : Attempt
  deriving DecidableEq, Repr

/-- What `fetchJSON` rejects with: the transport error `e`, the exception of
`JSON.parse`, or `new Error('Invalid JSON: ' + data.substring(0, 100))`. -/
inductive FetchError where
  | transport (e : String) : FetchError
  | parseException (e : String) : FetchError
  | invalidJSON (preview : String) : FetchError
  deriving DecidableEq, Repr

/-- How the promise of `fetchJSON` settles, and how many requests were made. -/
structure FetchResult (α : Type) where
  settled : Except FetchError α
  requests : Nat
  deriving DecidableEq, Repr

/-- The closure `doRequest(attempt)` of `fetchJSON`. `parse` is `JSON.parse`
(`.error` when it throws) and `outcomes k` is how request number `k` ends. -/
def doRequest {α : Type} (parse : String → Except String α) (retries : Nat)
    (outcomes : Nat → Attempt) (attempt : Nat) : FetchResult α :=
  match outcomes attempt with
  | Attempt.response true data =>
    match parse data with
    | .ok v => { settled := .ok v, requests := attempt + 1 }
    | .error e => { settled := .error (FetchError.parseException e), requests := attempt + 1 }
  | Attempt.response false data =>
    match parse data with
    | .ok v => { settled := .ok v, requests := attempt + 1 }
    | .error _ =>
      if attempt < retries then doRequest parse retries outcomes (attempt + 1)
      else { settled := .error (FetchError.invalidJSON (String.mk (data.data.take 100)))
             requests := attempt + 1 }
  | Attempt.transportError e =>
    if attempt < retries then doRequest parse retries outcomes (attempt + 1)
    else { settled := .error (FetchError.transport e), requests := attempt + 1 }
termination_by retries - attempt

/-- The function `fetchJSON(url, retries)`: it calls `doRequest(0)`. -/
def fetchJSON {α : Type} (parse : String → Except String α) (retries : Nat)
    (outcomes : Nat → Attempt) : FetchResult α :=
  doRequest parse retries outcomes 0

/-! ## The three adapters -/

/-- What an adapter gets from one `fetchJSON` call: `.error` when the call
rejected (the adapter catches it), `.ok none` when the adapter's guard on the parsed
value fails (`Array.isArray(data)`, `data && data.pairs`, `data && data.data`), and
`.ok (some records)` with the array it then walks. -/
abbrev Payload (α : Type) := Settled (Option (List α))

/-- An entry `t` of the boosts payload. -/
structure BoostToken where
  chainId : JSVal
  tokenAddress : JSVal
  deriving DecidableEq, Repr

/-- The filter `p.chainId === 'solana' && (p.dexId === 'pumpfun' || p.dexId ===
'raydium')` of both loops of `fetchDexScreener`. -/
def qualifies (p : DexPair) : Bool :=
  p.chainId.strictEq (JSVal.str "solana") &&
    (p.dexId.strictEq (JSVal.str "pumpfun") || p.dexId.strictEq (JSVal.str "raydium"))

/-- The `forEach` callback of the boosts phase: a qualifying pair is pushed. -/
def boostsPush (js : Builtins) (now : Int) (coins : List Coin) (p : DexPair) : List Coin :=
  if qualifies p then coins ++ [processDexPair js p now] else coins

/-- The boosts phase of `fetchDexScreener`, wrapped in its `try`. -/
def boostsPhase (js : Builtins) (now : Int) (boosts : Payload BoostToken)
    (tokenData : Payload DexPair) : List Coin :=
  match boosts with
  | .ok (some bs) =>
    let solanaTokens :=
      ((bs.filter (fun t => t.chainId.strictEq (JSVal.str "solana"))).take 30).map
        (fun t => t.tokenAddress)
    if solanaTokens.length > 0 then
      match tokenData with
      | .ok (some pairs) => pairs.foldl (boostsPush js now) []
      | _ => []
    else []
  | _ => []

/-- The `forEach` callback of the search phase: a qualifying pair is pushed unless
`coins.find(c => c.address === p.baseToken?.address)` finds a listing. -/
def searchPush (js : Builtins) (now : Int) (coins : List Coin) (p : DexPair) : List Coin :=
  if qualifies p then
    match coins.find? (fun c => c.address.strictEq p.baseTokenAddress) with
    | some _ => coins
    | none => coins ++ [processDexPair js p now]
  else coins

/-- One iteration of the `for (const q of searches)` loop, wrapped in its `try`. -/
def searchQuery (js : Builtins) (now : Int) (coins : List Coin) (data : Payload DexPair) :
    List Coin :=
  match data with
  | .ok (some pairs) => pairs.foldl (searchPush js now) coins
  | _ => coins

/-- The function `fetchDexScreener`: `boosts` and `tokenData` are what the two
requests of the boosts phase give, `searchPump`, `searchNew` and `searchMeme` what
the searches for `'pump'`, `'new'` and `'meme'` give. -/
def fetchDexScreener (js : Builtins) (now : Int) (boosts : Payload BoostToken)
    (tokenData searchPump searchNew searchMeme : Payload DexPair) : List Coin :=
  [searchPump, searchNew, searchMeme].foldl (searchQuery js now)
    (boostsPhase js now boosts tokenData)

/-- The `data.data.forEach(pool => ...)` of `fetchGeckoTerminal`: a pool that is
mapped to no venue is passed over, a listing is pushed unless
`coins.find(c => c.address === addr)` finds one, and an exception thrown by the
callback ends the walk (it is caught by the `try` around it) with the listings
pushed so far. -/
def geckoForEach (js : Builtins) (now : Int) : List Coin → List GeckoPool → List Coin
  | coins, [] => coins
  | coins, pool :: rest =>
    match geckoPoolCoin js pool now with
    | .error _ => coins
    | .ok none => geckoForEach js now coins rest
    | .ok (some c) =>
      match coins.find? (fun x => x.address.strictEq c.address) with
      | some _ => geckoForEach js now coins rest
      | none => geckoForEach js now (coins ++ [c]) rest

/-- One iteration of the `for (const url of endpoints)` loop, wrapped in its `try`. -/
def geckoEndpoint (js : Builtins) (now : Int) (coins : List Coin) (data : Payload GeckoPool) :
    List Coin :=
  match data with
  | .ok (some pools) => geckoForEach js now coins pools
  | _ => coins

/-- The function `fetchGeckoTerminal`: `newPools` and `trendingPools` are what the
two endpoints give. -/
def fetchGeckoTerminal (js : Builtins) (now : Int) (newPools trendingPools : Payload GeckoPool) :
    List Coin :=
  [newPools, trendingPools].foldl (geckoEndpoint js now) []

/-- The function `fetchPumpFun`: `data` is what its one request gives. -/
def fetchPumpFun (js : Builtins) (now : Int) (data : Payload PumpCoin) : List Coin :=
  match data with
  | .ok (some coins) => coins.map (fun c => pumpFunCoin js c now)
  | _ => []

/-- A listing with the given address and age and fixed other fields, for examples. -/
def sampleCoin (address : String) (age : Option JSNum) : Coin :=
  { symbol := JSVal.str "???", name := JSVal.str "", address := JSVal.str address,
    price := JSNum.fin 0, mcap := JSVal.num (JSNum.fin 0), progress := JSNum.fin 0,
    graduated := JSVal.bool false, isKing := false, replies := JSVal.num (JSNum.fin 0),
    image := JSVal.null, created := JSVal.num (JSNum.fin 0), age := age, url := "",
    volume24h := JSNum.fin 0, liquidity := JSNum.fin 0, change24h := JSVal.undefined,
    dex := JSVal.str "pumpfun" }

/-- Adapter A of the scenario of the specification: X aged 100. -/
def scenarioA : List Coin := [sampleCoin "X" (some (JSNum.fin 100))]

/-- Adapter B of the scenario of the specification: X aged 200, Y of unknown age. -/
def scenarioB : List Coin := [sampleCoin "X" (some (JSNum.fin 200)), sampleCoin "Y" none]

/-- Builtins for the examples: every string fails to parse as a number or a date.
The records of the examples carry numbers, not numeric strings. -/
def exampleBuiltins : Builtins :=
  { parseFloatStr := fun _ => JSNum.nan
    toNumberStr := fun _ => JSNum.nan
    dateParseStr := fun _ => JSNum.nan
    numToString := fun _ => "" }

/-- A DexScreener pair on pump.fun with no other field present. -/
def bareDexPair : DexPair :=
  { chainId := JSVal.str "solana", dexId := JSVal.str "pumpfun",
    pairAddress := JSVal.undefined, pairCreatedAt := JSVal.undefined, fdv := JSVal.undefined,
    priceUsd := JSVal.undefined, baseTokenSymbol := JSVal.undefined,
    baseTokenName := JSVal.undefined, baseTokenAddress := JSVal.undefined,
    infoImageUrl := JSVal.undefined, volumeH24 := JSVal.undefined,
    liquidityUsd := JSVal.undefined, priceChangeH24 := JSVal.undefined }

/-- A GeckoTerminal pool of the dex `pump-fun` with no attribute present. -/
def bareGeckoPool : GeckoPool :=
  { id := JSVal.str "solana_ABC", dexDataId := JSVal.str "pump-fun", name := JSVal.undefined,
    pool_created_at := JSVal.undefined, fdv_usd := JSVal.undefined,
    base_token_price_usd := JSVal.undefined, volumeUsdH24 := JSVal.undefined,
    reserve_in_usd := JSVal.undefined, priceChangePercentageH24 := JSVal.undefined }

/-- A pump.fun coin with a mint and no other field present. -/
def barePumpCoin : PumpCoin :=
  { symbol := JSVal.undefined, name := JSVal.undefined, mint := JSVal.str "M",
    price := JSVal.undefined, usd_market_cap := JSVal.undefined, complete := JSVal.undefined,
    raydium_pool := JSVal.undefined, reply_count := JSVal.undefined,
    image_uri := JSVal.undefined, created_timestamp := JSVal.undefined }

/-! ## Definitions used in the statements and proofs -/

/-- The array an adapter contributes: its value, or `[]` when it rejected. -/
def contributed (r : Settled (List Coin)) : List Coin :=
  match r with
  | .ok v => v
  | .error _ => []

/-- The merge loop as a recursion on the input, for reasoning: the entries pushed
when the loop runs over `l` with `seen` already recorded. -/
def pushed (seen : List JSVal) : List Coin → List Coin
  | [] => []
  | c :: l =>
    if c.address ∈ seen then pushed seen l
    else c :: pushed (c.address :: seen) l

/-- Listings of unknown age numbered `k + n - 1`, ..., `k` (`n` of them): the
address of listing `i` is the letter `a` repeated `i` times. -/
def unknownAgeCoins (k : Nat) : Nat → List Coin
  | 0 => []
  | n + 1 => sampleCoin (String.mk (List.replicate (k + n) 'a')) none :: unknownAgeCoins k n

/-- The records an adapter walks for a payload: none when the request rejected or
the guard failed. -/
def payloadRecords {α : Type} (data : Payload α) : List α :=
  match data with
  | .ok (some records) => records
  | _ => []

/-- The addresses of a sequence of listings, without the empty ones. -/
def nonEmptyAddresses (coins : List Coin) : List JSVal :=
  (coins.map (fun c => c.address)).filter (fun a => decide (a ≠ JSVal.str ""))

/-- The listing's `dex` is one of the two venue tags. -/
def dexIsVenue (c : Coin) : Prop :=
  c.dex = JSVal.str "pumpfun" ∨ c.dex = JSVal.str "raydium"

/-- A stand-in for `JSON.parse` in the examples: it agrees with `JSON.parse` on the
two bodies the examples use, `1` and `<html>`. -/
def exampleParse (data : String) : Except String JSVal :=
  if data = "1" then .ok (JSVal.num (JSNum.fin 1))
  else .error "Unexpected token < in JSON at position 0"

/-- The request fails in a way after which `doRequest` starts another request while
`attempt < retries`: a transport error, or an uncompressed body that does not parse. -/
def Attempt.retryable {α : Type} (parse : String → Except String α) : Attempt → Prop
  | Attempt.transportError _ => True
  | Attempt.response gzip data => gzip = false ∧ ∃ e, parse data = .error e

/-- How `doRequest` settles when request `n` is the last one it makes. -/
def Attempt.settles {α : Type} (parse : String → Except String α) (retries n : Nat)
    (a : Attempt) (r : Except FetchError α) : Prop :=
  match a with
  | Attempt.transportError e => n = retries ∧ r = .error (FetchError.transport e)
  | Attempt.response gzip data =>
    match parse data with
    | .ok v => r = .ok v
    | .error e =>
      if gzip = true then r = .error (FetchError.parseException e)
      else n = retries ∧ r = .error (FetchError.invalidJSON (String.mk (data.data.take 100)))

/-! ## The merge loop keeps first occurrences -/

theorem foldl_mergeStep_coins (l : List Coin) (st : MergeState) :
    (l.foldl mergeStep st).coins = st.coins ++ pushed st.seen l := by
  induction l generalizing st with
  | nil => simp [pushed]
  | cons c l ih =>
    rw [List.foldl_cons, ih]
    by_cases h : c.address ∈ st.seen
    · simp [mergeStep, pushed, h]
    · simp [mergeStep, pushed, h]

theorem mergeCoins_eq_pushed (l : List Coin) : mergeCoins l = pushed [] l := by
  simp [mergeCoins, foldl_mergeStep_coins]

theorem pushed_sublist (seen : List JSVal) (l : List Coin) :
    (pushed seen l).Sublist l := by
  induction l generalizing seen with
  | nil => simp [pushed]
  | cons c l ih =>
    by_cases h : c.address ∈ seen
    · simpa [pushed, h] using (ih seen).trans (List.sublist_cons_self c l)
    · simpa [pushed, h] using ih (c.address :: seen)

theorem address_not_mem_of_mem_pushed {seen : List JSVal} {l : List Coin} {e : Coin}
    (he : e ∈ pushed seen l) : e.address ∉ seen := by
  induction l generalizing seen with
  | nil => simp [pushed] at he
  | cons c l ih =>
    by_cases h : c.address ∈ seen
    · simp only [pushed, h, if_true] at he
      exact ih he
    · simp only [pushed, h, if_false, List.mem_cons] at he
      rcases he with rfl | he
      · exact h
      · exact fun hmem => ih he (List.mem_cons_of_mem _ hmem)

theorem pushed_nodup (seen : List JSVal) (l : List Coin) :
    ((pushed seen l).map (fun c => c.address)).Nodup := by
  induction l generalizing seen with
  | nil => simp [pushed]
  | cons c l ih =>
    by_cases h : c.address ∈ seen
    · simpa [pushed, h] using ih seen
    · simp only [pushed, h, if_false, List.map_cons, List.nodup_cons]
      refine ⟨?_, ih _⟩
      intro hmem
      obtain ⟨e, he, hea⟩ := List.mem_map.1 hmem
      exact address_not_mem_of_mem_pushed he (by simp [hea])

theorem find_of_mem_pushed {seen : List JSVal} {l : List Coin} {e : Coin}
    (he : e ∈ pushed seen l) :
    l.find? (fun c => decide (c.address = e.address)) = some e := by
  induction l generalizing seen with
  | nil => simp [pushed] at he
  | cons c l ih =>
    by_cases h : c.address ∈ seen
    · simp only [pushed, h, if_true] at he
      have hne : c.address ≠ e.address := fun hce =>
        address_not_mem_of_mem_pushed he (hce ▸ h)
      simpa [List.find?_cons, hne] using ih he
    · simp only [pushed, h, if_false, List.mem_cons] at he
      rcases he with rfl | he
      · simp [List.find?_cons]
      · have hne : c.address ≠ e.address := fun hce =>
          address_not_mem_of_mem_pushed he (by simp [hce])
        simpa [List.find?_cons, hne] using ih he

theorem exists_mem_pushed {seen : List JSVal} {l : List Coin} {c : Coin}
    (hc : c ∈ l) (hs : c.address ∉ seen) :
    ∃ e ∈ pushed seen l, e.address = c.address := by
  induction l generalizing seen with
  | nil => simp at hc
  | cons d l ih =>
    by_cases h : d.address ∈ seen
    · have hcl : c ∈ l := by
        rcases List.mem_cons.1 hc with rfl | hcl
        · exact absurd h hs
        · exact hcl
      simpa [pushed, h] using ih hcl hs
    · by_cases hdc : d.address = c.address
      · exact ⟨d, by simp [pushed, h], hdc⟩
      · have hcl : c ∈ l := by
          rcases List.mem_cons.1 hc with rfl | hcl
          · exact absurd rfl hdc
          · exact hcl
        have hs2 : c.address ∉ d.address :: seen := by
          simp only [List.mem_cons, not_or]
          exact ⟨fun h2 => hdc h2.symm, hs⟩
        obtain ⟨e, he, hea⟩ := ih hcl hs2
        exact ⟨e, by simp [pushed, h, he], hea⟩

/-- The merge keeps, for every address, its first entry and nothing else. -/
theorem mergeCoins_spec (l : List Coin) :
    ((mergeCoins l).map (fun c => c.address)).Nodup ∧
    (∀ e ∈ mergeCoins l, l.find? (fun c => decide (c.address = e.address)) = some e) ∧
    (∀ c ∈ l, ∃ e ∈ mergeCoins l, e.address = c.address) ∧
    (mergeCoins l).Sublist l := by
  rw [mergeCoins_eq_pushed]
  exact ⟨pushed_nodup _ _, fun e he => find_of_mem_pushed he,
    fun c hc => exists_mem_pushed hc (by simp), pushed_sublist _ _⟩

theorem mergeCoins_length (l : List Coin) :
    (mergeCoins l).length = (l.map (fun c => c.address)).toFinset.card := by
  obtain ⟨hnd, hfind, hex, hsub⟩ := mergeCoins_spec l
  rw [← List.length_map (mergeCoins l) (fun c => c.address),
    ← List.toFinset_card_of_nodup hnd]
  congr 1
  ext a
  simp only [List.mem_toFinset, List.mem_map]
  constructor
  · rintro ⟨e, he, rfl⟩
    exact ⟨e, hsub.subset he, rfl⟩
  · rintro ⟨c, hc, rfl⟩
    obtain ⟨e, he, hea⟩ := hex c hc
    exact ⟨e, he, hea⟩

/-! ## The sort -/

theorem notAfter_iff (a b : Coin) :
    notAfter a b ↔ ageOrInfinity a.age ≤ ageOrInfinity b.age := by
  unfold notAfter compareAge
  generalize ageOrInfinity a.age = ka
  generalize ageOrInfinity b.age = kb
  match ka, kb with
  | none, none => simp
  | none, some y =>
    simp only [ne_eq, not_true_eq_false, false_iff, not_le]
    exact WithTop.coe_lt_top y
  | some x, none =>
    simp only [ne_eq, reduceCtorEq, not_false_eq_true, true_iff]
    exact le_top
  | some x, some y =>
    have hxy : ((x : WithTop ℚ) ≤ (y : WithTop ℚ)) ↔ x ≤ y := WithTop.coe_le_coe
    show _ ↔ ((x : WithTop ℚ) ≤ (y : WithTop ℚ))
    rw [hxy]
    show (if x - y < 0 then CmpSign.negative
      else if x - y = 0 then CmpSign.zero else CmpSign.positive) ≠ CmpSign.positive ↔ x ≤ y
    by_cases h1 : x - y < 0
    · rw [if_pos h1]
      exact ⟨fun _ => by linarith, fun _ => by simp⟩
    · rw [if_neg h1]
      by_cases h2 : x - y = 0
      · rw [if_pos h2]
        exact ⟨fun _ => by linarith, fun _ => by simp⟩
      · rw [if_neg h2]
        refine ⟨fun h => absurd rfl h, fun h => ?_⟩
        rcases lt_or_gt_of_ne h2 with h3 | h3
        · exact absurd h3 h1
        · linarith

theorem notAfter_total (a b : Coin) : notAfter a b ∨ notAfter b a := by
  simp only [notAfter_iff]
  exact le_total _ _

theorem notAfter_trans {a b c : Coin} (hab : notAfter a b) (hbc : notAfter b c) :
    notAfter a c := by
  simp only [notAfter_iff] at *
  exact le_trans hab hbc

theorem sortCoins_sorted (l : List Coin) : (sortCoins l).Sorted notAfter := by
  haveI : IsTotal Coin notAfter := ⟨notAfter_total⟩
  haveI : IsTrans Coin notAfter := ⟨fun _ _ _ => notAfter_trans⟩
  exact List.sorted_insertionSort notAfter l

theorem sortCoins_perm (l : List Coin) : (sortCoins l).Perm l :=
  List.perm_insertionSort notAfter l

theorem mem_sortCoins {l : List Coin} {e : Coin} : e ∈ sortCoins l ↔ e ∈ l :=
  (sortCoins_perm l).mem_iff

theorem sortCoins_length (l : List Coin) : (sortCoins l).length = l.length :=
  (sortCoins_perm l).length_eq

/-! ## The refresh path -/

theorem refresh_eq (now : Int) (dex gecko pump : Settled (List Coin)) :
    refresh now dex gecko pump =
      .ok { returned := mergeSortCap (contributed dex) (contributed gecko) (contributed pump)
            cache :=
              { pumpCoins :=
                  mergeSortCap (contributed dex) (contributed gecko) (contributed pump)
                lastFetch := now }
            invoked := [Adapter.fetchDexScreener, Adapter.fetchGeckoTerminal,
              Adapter.fetchPumpFun] } := by
  cases dex <;> cases gecko <;> cases pump <;> rfl

theorem refresh_ok_returned {now : Int} {dexCoins geckoCoins pumpCoins_ : List Coin}
    {o : Outcome} (h : refresh now (.ok dexCoins) (.ok geckoCoins) (.ok pumpCoins_) = .ok o) :
    o.returned = mergeSortCap dexCoins geckoCoins pumpCoins_ := by
  rw [refresh_eq] at h
  rw [← Except.ok.inj h]
  rfl

theorem mergeSortCap_nodup (dexCoins geckoCoins pumpCoins_ : List Coin) :
    ((mergeSortCap dexCoins geckoCoins pumpCoins_).map (fun c => c.address)).Nodup := by
  have h1 := (mergeCoins_spec (dexCoins ++ geckoCoins ++ pumpCoins_)).1
  have h2 : ((sortCoins (mergeCoins (dexCoins ++ geckoCoins ++ pumpCoins_))).map
      (fun c => c.address)).Nodup :=
    (((sortCoins_perm _).map _).nodup_iff).2 h1
  exact h2.sublist ((List.take_sublist _ _).map _)

theorem mem_mergeCoins_of_mem_mergeSortCap {dexCoins geckoCoins pumpCoins_ : List Coin}
    {e : Coin} (he : e ∈ mergeSortCap dexCoins geckoCoins pumpCoins_) :
    e ∈ mergeCoins (dexCoins ++ geckoCoins ++ pumpCoins_) :=
  mem_sortCoins.1 (List.mem_of_mem_take he)

theorem mergeSortCap_eq_sort_of_card_le (dexCoins geckoCoins pumpCoins_ : List Coin)
    (h : ((dexCoins ++ geckoCoins ++ pumpCoins_).map (fun c => c.address)).toFinset.card
      ≤ 150) :
    mergeSortCap dexCoins geckoCoins pumpCoins_ =
      sortCoins (mergeCoins (dexCoins ++ geckoCoins ++ pumpCoins_)) := by
  unfold mergeSortCap
  apply List.take_of_length_le
  rw [sortCoins_length, mergeCoins_length]
  exact h

theorem mem_of_mem_mergeSortCap {dexCoins geckoCoins pumpCoins_ : List Coin} {e : Coin}
    (he : e ∈ mergeSortCap dexCoins geckoCoins pumpCoins_) :
    e ∈ dexCoins ++ geckoCoins ++ pumpCoins_ :=
  (mergeCoins_spec _).2.2.2.subset (mem_mergeCoins_of_mem_mergeSortCap he)

theorem mergeCoins_ne_nil {l : List Coin} (h : l ≠ []) : mergeCoins l ≠ [] := by
  cases l with
  | nil => exact absurd rfl h
  | cons c l => simp [mergeCoins_eq_pushed, pushed]

theorem mergeSortCap_ne_nil {dexCoins geckoCoins pumpCoins_ : List Coin}
    (h : dexCoins ++ geckoCoins ++ pumpCoins_ ≠ []) :
    mergeSortCap dexCoins geckoCoins pumpCoins_ ≠ [] := by
  have h1 : 0 < (sortCoins (mergeCoins (dexCoins ++ geckoCoins ++ pumpCoins_))).length := by
    rw [sortCoins_length]
    exact List.length_pos.2 (mergeCoins_ne_nil h)
  intro h2
  have h3 := congrArg List.length h2
  simp only [mergeSortCap, List.length_take, MAX_COINS, List.length_nil] at h3
  omega

theorem mergeSortCap_kept_before_dropped (dexCoins geckoCoins pumpCoins_ : List Coin) :
    ∀ kept ∈ mergeSortCap dexCoins geckoCoins pumpCoins_,
      ∀ dropped ∈ (sortCoins (mergeCoins (dexCoins ++ geckoCoins ++ pumpCoins_))).drop MAX_COINS,
        notAfter kept dropped := by
  have hs := sortCoins_sorted (mergeCoins (dexCoins ++ geckoCoins ++ pumpCoins_))
  rw [← List.take_append_drop MAX_COINS
    (sortCoins (mergeCoins (dexCoins ++ geckoCoins ++ pumpCoins_)))] at hs
  exact (List.pairwise_append.1 hs).2.2

/-- The result of a refresh is ordered by the key `age || Infinity`: of two entries,
the earlier one never has the larger key. -/
theorem mergeSortCap_sorted (dexCoins geckoCoins pumpCoins_ : List Coin) :
    (mergeSortCap dexCoins geckoCoins pumpCoins_).Pairwise
      (fun a b => ageOrInfinity a.age ≤ ageOrInfinity b.age) := by
  have hs : (sortCoins (mergeCoins (dexCoins ++ geckoCoins ++ pumpCoins_))).Pairwise notAfter :=
    sortCoins_sorted _
  have ht : (mergeSortCap dexCoins geckoCoins pumpCoins_).Pairwise notAfter :=
    hs.sublist (List.take_sublist _ _)
  exact ht.imp (fun {a b} h => (notAfter_iff a b).1 h)

/-! ## The normalisers, field by field -/

theorem JSNum.orZero_eq_fin (n : JSNum) : ∃ q : ℚ, n.orZero = JSNum.fin q := by
  cases n with
  | nan => exact ⟨0, rfl⟩
  | fin q =>
    by_cases h : q = 0
    · exact ⟨0, by simp [JSNum.orZero, JSNum.truthy, h]⟩
    · exact ⟨q, by simp [JSNum.orZero, JSNum.truthy, h]⟩

theorem JSVal.truthy_or (a b : JSVal) : (a.or b).truthy = (a.truthy || b.truthy) := by
  unfold JSVal.or
  cases h : a.truthy <;> simp [h]

theorem progressOf_fin (q : ℚ) :
    progressOf (JSNum.fin q) = JSNum.fin (min (q / 69000 * 100) 100) := rfl

theorem strictEq_str_iff (v : JSVal) (t : String) :
    v.strictEq (JSVal.str t) = true ↔ v = JSVal.str t := by
  unfold JSVal.strictEq
  constructor
  · intro h
    simp only [Bool.and_eq_true, decide_eq_true_eq] at h
    exact h.1
  · intro h
    subst h
    simp

/-- What the GeckoTerminal callback builds when it gets as far as the object: the
pool was mapped to a venue, its name and id were usable, and each field is the
expression of the object literal. -/
theorem geckoPoolCoin_fields {js : Builtins} {pool : GeckoPool} {now : Int} {c : Coin}
    (h : geckoPoolCoin js pool now = .ok (some c)) :
    ∃ dexId : String, geckoDexId pool = .ok dexId ∧ dexId ≠ "" ∧
      c.dex = JSVal.str dexId ∧
      c.mcap = JSVal.num (pool.fdv_usd.parseFloat js).orZero ∧
      c.progress = progressOf (pool.fdv_usd.parseFloat js).orZero ∧
      c.graduated = JSVal.bool (decide (dexId = "raydium") ||
        (pool.fdv_usd.parseFloat js).orZero.geConst GRADUATION_MCAP) ∧
      c.age = (if pool.pool_created_at.truthy then
          some ((JSNum.fin now).sub (dateGetTime js pool.pool_created_at)) else none) ∧
      c.created = (if pool.pool_created_at.truthy then
          JSVal.num (dateGetTime js pool.pool_created_at) else JSVal.num (JSNum.fin now)) ∧
      c.price = (pool.base_token_price_usd.parseFloat js).orZero ∧
      c.volume24h = (if pool.volumeUsdH24.truthy then pool.volumeUsdH24.parseFloat js
          else JSNum.fin 0) ∧
      c.liquidity = (pool.reserve_in_usd.parseFloat js).orZero ∧
      c.change24h = JSVal.num (if pool.priceChangePercentageH24.truthy
          then pool.priceChangePercentageH24.parseFloat js else JSNum.fin 0) := by
  unfold geckoPoolCoin at h
  cases hd : geckoDexId pool with
  | error e => simp [hd, bind, Except.bind] at h
  | ok dexId =>
    simp only [hd, bind, Except.bind] at h
    by_cases hempty : dexId = ""
    · simp [hempty, pure, Except.pure] at h
    · rw [if_neg hempty] at h
      refine ⟨dexId, rfl, hempty, ?_⟩
      cases hn : pool.name.or (JSVal.str "") with
      | str nm =>
        simp only [hn] at h
        cases hid : pool.id with
        | undefined =>
          simp only [hid, pure, Except.pure, Except.ok.injEq, Option.some.injEq] at h
          subst h
          exact ⟨rfl, rfl, rfl, rfl, rfl, rfl, rfl, rfl, rfl, rfl⟩
        | null =>
          simp only [hid, pure, Except.pure, Except.ok.injEq, Option.some.injEq] at h
          subst h
          exact ⟨rfl, rfl, rfl, rfl, rfl, rfl, rfl, rfl, rfl, rfl⟩
        | str sid =>
          simp only [hid, pure, Except.pure, Except.ok.injEq, Option.some.injEq] at h
          subst h
          exact ⟨rfl, rfl, rfl, rfl, rfl, rfl, rfl, rfl, rfl, rfl⟩
        | bool b => simp [hid, pure, Except.pure, throw, throwThe, MonadExceptOf.throw] at h
        | num n => simp [hid, pure, Except.pure, throw, throwThe, MonadExceptOf.throw] at h
      | undefined => simp [hn, pure, Except.pure, throw, throwThe, MonadExceptOf.throw] at h
      | null => simp [hn, pure, Except.pure, throw, throwThe, MonadExceptOf.throw] at h
      | bool b => simp [hn, pure, Except.pure, throw, throwThe, MonadExceptOf.throw] at h
      | num n => simp [hn, pure, Except.pure, throw, throwThe, MonadExceptOf.throw] at h

/-! ## Claims -/

/-- The three facts about dedup in the refresh path, shared by the claims on
addresses. -/
theorem refresh_dedup_facts (now : Int)
    (dexCoins geckoCoins pumpCoins_ : List Coin) :
    ∃ o, refresh now (.ok dexCoins) (.ok geckoCoins) (.ok pumpCoins_) = .ok o ∧
      (o.returned.map (fun c => c.address)).Nodup ∧
      (∀ e ∈ o.returned,
        (dexCoins ++ geckoCoins ++ pumpCoins_).find?
          (fun c => decide (c.address = e.address)) = some e) ∧
      (((dexCoins ++ geckoCoins ++ pumpCoins_).map (fun c => c.address)).toFinset.card
          ≤ 150 →
        ∀ c ∈ dexCoins ++ geckoCoins ++ pumpCoins_,
          (o.returned.map (fun c => c.address)).count c.address = 1) := by
  refine ⟨_, refresh_eq now _ _ _, ?_, ?_, ?_⟩
  · exact mergeSortCap_nodup dexCoins geckoCoins pumpCoins_
  · intro e he
    exact (mergeCoins_spec _).2.1 e (mem_mergeCoins_of_mem_mergeSortCap he)
  · intro hcard c hc
    apply List.count_eq_one_of_mem (mergeSortCap_nodup dexCoins geckoCoins pumpCoins_)
    show c.address ∈ (mergeSortCap (contributed (.ok dexCoins)) (contributed (.ok geckoCoins))
      (contributed (.ok pumpCoins_))).map (fun c => c.address)
    simp only [contributed]
    rw [mergeSortCap_eq_sort_of_card_le _ _ _ hcard]
    obtain ⟨e, he, hea⟩ := (mergeCoins_spec _).2.2.1 c hc
    exact List.mem_map.2 ⟨e, mem_sortCoins.2 he, hea⟩

/-- C1: for every triple of adapter outputs the refresh path of `fetchAllData`
resolves with a sequence that holds at most one entry per address; every entry it
holds is the first entry with that address in DexScreener ++ GeckoTerminal ++
pump.fun; and when the concatenation holds at most 150 distinct addresses, every
address that occurs has exactly one entry in the result. -/
theorem fetchAllData_first_occurrence_wins (now : Int)
    (dexCoins geckoCoins pumpCoins_ : List Coin) :
    ∃ o, refresh now (.ok dexCoins) (.ok geckoCoins) (.ok pumpCoins_) = .ok o ∧
      (o.returned.map (fun c => c.address)).Nodup ∧
      (∀ e ∈ o.returned,
        (dexCoins ++ geckoCoins ++ pumpCoins_).find?
          (fun c => decide (c.address = e.address)) = some e) ∧
      (((dexCoins ++ geckoCoins ++ pumpCoins_).map (fun c => c.address)).toFinset.card
          ≤ 150 →
        ∀ c ∈ dexCoins ++ geckoCoins ++ pumpCoins_,
          (o.returned.map (fun c => c.address)).count c.address = 1) := by
  refine ⟨_, refresh_eq now _ _ _, ?_, ?_, ?_⟩
  · exact mergeSortCap_nodup dexCoins geckoCoins pumpCoins_
  · intro e he
    have hmem : e ∈ mergeCoins (dexCoins ++ geckoCoins ++ pumpCoins_) :=
      mem_sortCoins.1 (List.mem_of_mem_take he)
    exact (mergeCoins_spec _).2.1 e hmem
  · intro hcard c hc
    apply List.count_eq_one_of_mem (mergeSortCap_nodup dexCoins geckoCoins pumpCoins_)
    show c.address ∈ (mergeSortCap (contributed (.ok dexCoins)) (contributed (.ok geckoCoins))
      (contributed (.ok pumpCoins_))).map (fun c => c.address)
    simp only [contributed]
    rw [mergeSortCap_eq_sort_of_card_le _ _ _ hcard]
    obtain ⟨e, he, hea⟩ := (mergeCoins_spec _).2.2.1 c hc
    exact List.mem_map.2 ⟨e, mem_sortCoins.2 he, hea⟩

/-- C1, the scenario of the specification: A = [X aged 100], B = [X aged 200,
Y of unknown age] merge to [X aged 100, Y of unknown age]. -/
theorem fetchAllData_first_occurrence_wins_witness :
    (∃ o, refresh 0 (.ok scenarioA) (.ok scenarioB) (.ok []) = .ok o ∧
      o.returned = [sampleCoin "X" (some (JSNum.fin 100)), sampleCoin "Y" none]) ∧
    ∃ o, refresh 0 (.ok scenarioA) (.ok scenarioB) (.ok []) = .ok o ∧
      (o.returned.map (fun c : Coin => c.address)).Nodup ∧
      (∀ e ∈ o.returned,
        (scenarioA ++ scenarioB ++ ([] : List Coin)).find?
          (fun c => decide (c.address = e.address)) = some e) ∧
      (((scenarioA ++ scenarioB ++ ([] : List Coin)).map (fun c : Coin => c.address)).toFinset.card ≤ 150 →
        ∀ c ∈ scenarioA ++ scenarioB ++ ([] : List Coin),
          (o.returned.map (fun c : Coin => c.address)).count c.address = 1) :=
  ⟨⟨_, refresh_eq 0 _ _ _, by decide⟩,
    fetchAllData_first_occurrence_wins 0 scenarioA scenarioB []⟩

/-- C2: a listing whose age is the known value 0 is sorted as if its age were
unknown. With DexScreener returning [A aged 0, B aged 100] the refresh resolves
with [B aged 100, A aged 0], so the known ages are not in non-decreasing order; and
with [N of unknown age, Z aged 0] it resolves with N in front of Z, a listing of
unknown age in front of one whose age is known. -/
theorem fetchAllData_age_zero_sorted_last :
    (∃ o, refresh 0 (.ok [sampleCoin "A" (some (JSNum.fin 0)),
          sampleCoin "B" (some (JSNum.fin 100))]) (.ok []) (.ok []) = .ok o ∧
      o.returned = [sampleCoin "B" (some (JSNum.fin 100)),
        sampleCoin "A" (some (JSNum.fin 0))]) ∧
    (∃ o, refresh 0 (.ok [sampleCoin "N" none, sampleCoin "Z" (some (JSNum.fin 0))])
          (.ok []) (.ok []) = .ok o ∧
      o.returned = [sampleCoin "N" none, sampleCoin "Z" (some (JSNum.fin 0))]) :=
  ⟨⟨_, refresh_eq 0 _ _ _, by decide⟩, ⟨_, refresh_eq 0 _ _ _, by decide⟩⟩

/-- C3, as stated, fails on an empty stored snapshot: with `pumpCoins = []` and
`lastFetch = 4000`, a call at time 5000 (1000 ms into the window) calls all three
adapters, replaces the snapshot and moves `lastFetch` to 5000. -/
theorem fetchAllData_empty_snapshot_not_served :
    (5000 : Int) - 4000 < CACHE_DURATION ∧
    fetchAllData { pumpCoins := [], lastFetch := 4000 } 5000 (.ok scenarioA) (.ok []) (.ok []) =
      .ok { returned := scenarioA
            cache := { pumpCoins := scenarioA, lastFetch := 5000 }
            invoked := [Adapter.fetchDexScreener, Adapter.fetchGeckoTerminal,
              Adapter.fetchPumpFun] } ∧
    fetchAllData { pumpCoins := [], lastFetch := 4000 } 5000 (.ok scenarioA) (.ok []) (.ok []) ≠
      .ok { returned := [], cache := { pumpCoins := [], lastFetch := 4000 }, invoked := [] } := by
  decide

/-- C3, amended: when the stored snapshot is non-empty and `now - lastFetch` is
below `CACHE_DURATION`, `fetchAllData` resolves with the stored snapshot, calls no
adapter and leaves `pumpCoins` and `lastFetch` as they were, so a second call inside
the same window (made in the state the first one left) does the same; when the stored
snapshot is empty, `fetchAllData` runs the refresh path whatever the time. -/
theorem fetchAllData_serves_fresh_nonempty_snapshot (s : Cache) (now now2 : Int)
    (dex gecko pump dex2 gecko2 pump2 : Settled (List Coin)) :
    (s.pumpCoins ≠ [] → now - s.lastFetch < CACHE_DURATION →
      fetchAllData s now dex gecko pump =
        .ok { returned := s.pumpCoins, cache := s, invoked := [] } ∧
      (now2 - s.lastFetch < CACHE_DURATION →
        ∃ o, fetchAllData s now dex gecko pump = .ok o ∧
          fetchAllData o.cache now2 dex2 gecko2 pump2 =
            .ok { returned := s.pumpCoins, cache := s, invoked := [] })) ∧
    (s.pumpCoins = [] → fetchAllData s now dex gecko pump = refresh now dex gecko pump) := by
  have key : ∀ (t : Int) (d g p : Settled (List Coin)), s.pumpCoins ≠ [] →
      t - s.lastFetch < CACHE_DURATION →
      fetchAllData s t d g p = .ok { returned := s.pumpCoins, cache := s, invoked := [] } := by
    intro t d g p hne hfresh
    have hlen : s.pumpCoins.length > 0 := List.length_pos.2 hne
    unfold fetchAllData
    rw [if_pos ⟨hfresh, hlen⟩]
    rfl
  refine ⟨fun hne hfresh => ⟨key now dex gecko pump hne hfresh, fun hfresh2 => ?_⟩, ?_⟩
  · exact ⟨_, key now dex gecko pump hne hfresh, key now2 dex2 gecko2 pump2 hne hfresh2⟩
  · intro hempty
    unfold fetchAllData
    rw [if_neg]
    simp [hempty]

/-- C3, amended, at a concrete state: the snapshot [X aged 100] fetched at 4000 is
served unchanged at 5000 and again at 8999. -/
theorem fetchAllData_serves_fresh_nonempty_snapshot_witness :
    scenarioA ≠ [] ∧ (5000 : Int) - 4000 < CACHE_DURATION ∧
    (8999 : Int) - 4000 < CACHE_DURATION ∧
    fetchAllData { pumpCoins := scenarioA, lastFetch := 4000 } 5000
        (.ok scenarioB) (.ok []) (.error "blocked") =
      .ok { returned := scenarioA
            cache := { pumpCoins := scenarioA, lastFetch := 4000 }
            invoked := [] } ∧
    ∃ o, fetchAllData { pumpCoins := scenarioA, lastFetch := 4000 } 5000
        (.ok scenarioB) (.ok []) (.error "blocked") = .ok o ∧
      fetchAllData o.cache 8999 (.ok scenarioB) (.ok scenarioB) (.ok []) =
        .ok { returned := scenarioA
              cache := { pumpCoins := scenarioA, lastFetch := 4000 }
              invoked := [] } :=
  have h := (fetchAllData_serves_fresh_nonempty_snapshot
    { pumpCoins := scenarioA, lastFetch := 4000 } 5000 8999
    (.ok scenarioB) (.ok []) (.error "blocked") (.ok scenarioB) (.ok scenarioB) (.ok [])).1
    (by decide) (by decide)
  ⟨by decide, by decide, by decide, h.1, h.2 (by decide)⟩

/-- C4: for every way the three adapter promises settle, the refresh path of
`fetchAllData` resolves (it does not reject) with the merge of the three outputs in
which a rejected adapter counts as the empty array. If two adapters reject and the
third resolves with a non-empty array, the result is non-empty and holds only
entries of that array; if all three reject, the result and the stored snapshot are
the empty array. -/
theorem refresh_survives_adapter_failures (now : Int) (dex gecko pump : Settled (List Coin)) :
    (∃ o, refresh now dex gecko pump = .ok o ∧
      o.returned = mergeSortCap (contributed dex) (contributed gecko) (contributed pump) ∧
      o.cache.pumpCoins = o.returned) ∧
    (∀ (l : List Coin) (e1 e2 : String), l ≠ [] →
      (∃ o, refresh now (.ok l) (.error e1) (.error e2) = .ok o ∧
        o.returned ≠ [] ∧ ∀ c ∈ o.returned, c ∈ l) ∧
      (∃ o, refresh now (.error e1) (.ok l) (.error e2) = .ok o ∧
        o.returned ≠ [] ∧ ∀ c ∈ o.returned, c ∈ l) ∧
      (∃ o, refresh now (.error e1) (.error e2) (.ok l) = .ok o ∧
        o.returned ≠ [] ∧ ∀ c ∈ o.returned, c ∈ l)) ∧
    (∀ e1 e2 e3 : String,
      ∃ o, refresh now (.error e1) (.error e2) (.error e3) = .ok o ∧
        o.returned = [] ∧ o.cache.pumpCoins = []) := by
  refine ⟨⟨_, refresh_eq now dex gecko pump, rfl, rfl⟩, ?_, ?_⟩
  · intro l e1 e2 hl
    refine ⟨⟨_, refresh_eq now _ _ _, ?_, ?_⟩, ⟨_, refresh_eq now _ _ _, ?_, ?_⟩,
      ⟨_, refresh_eq now _ _ _, ?_, ?_⟩⟩
    · exact mergeSortCap_ne_nil (by simpa [contributed] using hl)
    · intro c hc
      simpa [contributed] using mem_of_mem_mergeSortCap hc
    · exact mergeSortCap_ne_nil (by simpa [contributed] using hl)
    · intro c hc
      simpa [contributed] using mem_of_mem_mergeSortCap hc
    · exact mergeSortCap_ne_nil (by simpa [contributed] using hl)
    · intro c hc
      simpa [contributed] using mem_of_mem_mergeSortCap hc
  · intro e1 e2 e3
    exact ⟨_, refresh_eq now _ _ _, rfl, rfl⟩

/-- C4 at a concrete outcome: GeckoTerminal and pump.fun reject, DexScreener
resolves with [X aged 100]; the refresh resolves with [X aged 100]. -/
theorem refresh_survives_adapter_failures_witness :
    scenarioA ≠ [] ∧
    refresh 7000 (.ok scenarioA) (.error "timeout") (.error "blocked") =
      .ok { returned := scenarioA
            cache := { pumpCoins := scenarioA, lastFetch := 7000 }
            invoked := [Adapter.fetchDexScreener, Adapter.fetchGeckoTerminal,
              Adapter.fetchPumpFun] } ∧
    ∃ o, refresh 7000 (.ok scenarioA) (.error "timeout") (.error "blocked") = .ok o ∧
      o.returned ≠ [] ∧ ∀ c ∈ o.returned, c ∈ scenarioA :=
  ⟨by decide, by decide,
    ((refresh_survives_adapter_failures 7000 (.ok scenarioA) (.error "timeout")
      (.error "blocked")).2.1 scenarioA "timeout" "blocked" (by decide)).1⟩

/-- C6: for every triple of adapter outputs the snapshot that the refresh path of
`fetchAllData` stores and resolves with has at most 150 entries; it is the first
min(n, 150) entries of the sorted deduplicated sequence of length n; and every entry
the cap drops sorts at or after every entry kept (the comparator never asks to put
a dropped entry in front of a kept one). -/
theorem fetchAllData_cap (now : Int) (dexCoins geckoCoins pumpCoins_ : List Coin) :
    ∃ o, refresh now (.ok dexCoins) (.ok geckoCoins) (.ok pumpCoins_) = .ok o ∧
      o.cache.pumpCoins = o.returned ∧
      o.returned.length ≤ 150 ∧
      o.returned = (sortCoins (mergeCoins (dexCoins ++ geckoCoins ++ pumpCoins_))).take
        (min (sortCoins (mergeCoins (dexCoins ++ geckoCoins ++ pumpCoins_))).length 150) ∧
      o.returned.length =
        min (sortCoins (mergeCoins (dexCoins ++ geckoCoins ++ pumpCoins_))).length 150 ∧
      ∀ kept ∈ o.returned,
        ∀ dropped ∈ (sortCoins (mergeCoins (dexCoins ++ geckoCoins ++ pumpCoins_))).drop 150,
          compareAge kept dropped ≠ CmpSign.positive ∧
          ageOrInfinity kept.age ≤ ageOrInfinity dropped.age := by
  refine ⟨_, refresh_eq now _ _ _, rfl, ?_, ?_, ?_, ?_⟩
  · simp only [contributed, mergeSortCap, MAX_COINS, List.length_take]
    omega
  · simp only [contributed, mergeSortCap, MAX_COINS]
    rw [List.take_eq_take]
    omega
  · simp only [contributed, mergeSortCap, MAX_COINS, List.length_take]
    omega
  · intro kept hk dropped hd
    have h := mergeSortCap_kept_before_dropped dexCoins geckoCoins pumpCoins_ kept hk dropped hd
    exact ⟨h, (notAfter_iff kept dropped).1 h⟩

set_option maxRecDepth 100000 in
/-- C6 at a concrete input with 151 distinct addresses: DexScreener returns the
listings 100, ..., 1 of unknown age, GeckoTerminal the listings 150, ..., 101 of
unknown age, pump.fun one listing K aged 5. The snapshot is K followed by 100, ..., 1
and 150, ..., 102: it has 150 entries, and the entry dropped is listing 101, which
no kept entry sorts after. -/
theorem fetchAllData_cap_witness :
    ∃ o, refresh 0 (.ok (unknownAgeCoins 1 100)) (.ok (unknownAgeCoins 101 50))
        (.ok [sampleCoin "" (some (JSNum.fin 5))]) = .ok o ∧
      o.returned =
        sampleCoin "" (some (JSNum.fin 5)) :: (unknownAgeCoins 1 100 ++ unknownAgeCoins 102 49) ∧
      o.returned.length = 150 ∧
      (sortCoins (mergeCoins (unknownAgeCoins 1 100 ++ unknownAgeCoins 101 50 ++
        [sampleCoin "" (some (JSNum.fin 5))]))).drop 150 = unknownAgeCoins 101 1 ∧
      ∀ kept ∈ o.returned, ∀ dropped ∈ unknownAgeCoins 101 1,
        compareAge kept dropped ≠ CmpSign.positive := by
  obtain ⟨o, ho, _, _, _, _, hkd⟩ := fetchAllData_cap 0 (unknownAgeCoins 1 100)
    (unknownAgeCoins 101 50) [sampleCoin "" (some (JSNum.fin 5))]
  have hdrop : (sortCoins (mergeCoins (unknownAgeCoins 1 100 ++ unknownAgeCoins 101 50 ++
      [sampleCoin "" (some (JSNum.fin 5))]))).drop 150 = unknownAgeCoins 101 1 := by
    decide!
  have hval : mergeSortCap (unknownAgeCoins 1 100) (unknownAgeCoins 101 50)
      [sampleCoin "" (some (JSNum.fin 5))] =
      sampleCoin "" (some (JSNum.fin 5)) :: (unknownAgeCoins 1 100 ++ unknownAgeCoins 102 49) := by
    decide!
  have hret := refresh_ok_returned ho
  refine ⟨o, ho, hret.trans hval, ?_, hdrop, ?_⟩
  · rw [hret, hval]
    decide!
  · intro kept hk dropped hd
    exact (hkd kept hk dropped (by rw [hdrop]; exact hd)).1

/-- C7, as stated, fails: two records with the empty address, one from DexScreener
and one from GeckoTerminal (two records in total), merge to the first of them alone,
and so do two such records of one adapter. -/
theorem fetchAllData_empty_address_merged :
    (∃ o, refresh 0 (.ok [sampleCoin "" (some (JSNum.fin 100))])
        (.ok [sampleCoin "" (some (JSNum.fin 200))]) (.ok []) = .ok o ∧
      o.returned = [sampleCoin "" (some (JSNum.fin 100))]) ∧
    (∃ o, refresh 0 (.ok [sampleCoin "" (some (JSNum.fin 100)),
          sampleCoin "" (some (JSNum.fin 200))]) (.ok []) (.ok []) = .ok o ∧
      o.returned = [sampleCoin "" (some (JSNum.fin 100))]) :=
  ⟨⟨_, refresh_eq 0 _ _ _, by decide⟩, ⟨_, refresh_eq 0 _ _ _, by decide⟩⟩

/-- C7, amended: for every triple of adapter outputs the result of the refresh
path of `fetchAllData` holds at most one record whose address is the empty string;
when the outputs hold such a record and at most 150 records in total, the result
holds exactly one, and it is the first such record of DexScreener ++ GeckoTerminal
++ pump.fun. -/
theorem fetchAllData_empty_address_deduplicated (now : Int)
    (dexCoins geckoCoins pumpCoins_ : List Coin) :
    ∃ o, refresh now (.ok dexCoins) (.ok geckoCoins) (.ok pumpCoins_) = .ok o ∧
      (o.returned.map (fun c => c.address)).count (JSVal.str "") ≤ 1 ∧
      ((∃ c ∈ dexCoins ++ geckoCoins ++ pumpCoins_, c.address = JSVal.str "") →
        (dexCoins ++ geckoCoins ++ pumpCoins_).length ≤ 150 →
        (o.returned.map (fun c => c.address)).count (JSVal.str "") = 1 ∧
        ∃ e ∈ o.returned, e.address = JSVal.str "" ∧
          (dexCoins ++ geckoCoins ++ pumpCoins_).find?
            (fun c => decide (c.address = JSVal.str "")) = some e) := by
  obtain ⟨o, ho, hnd, hfirst, hall⟩ :=
    refresh_dedup_facts now dexCoins geckoCoins pumpCoins_
  refine ⟨o, ho, List.nodup_iff_count_le_one.1 hnd _, ?_⟩
  rintro ⟨c, hc, hca⟩ hlen
  have hcard : ((dexCoins ++ geckoCoins ++ pumpCoins_).map
      (fun c => c.address)).toFinset.card ≤ 150 :=
    le_trans (List.toFinset_card_le _) (by simpa using hlen)
  have hcount := hall hcard c hc
  rw [hca] at hcount
  refine ⟨hcount, ?_⟩
  have hmem : JSVal.str "" ∈ o.returned.map (fun c => c.address) :=
    List.count_pos_iff.1 (by omega)
  obtain ⟨e, he, hea⟩ := List.mem_map.1 hmem
  refine ⟨e, he, hea, ?_⟩
  have := hfirst e he
  simpa [hea] using this

/-- C7, amended, at a concrete input: the two empty-address records of the
counterexample merge to exactly one. -/
theorem fetchAllData_empty_address_deduplicated_witness :
    ∃ o, refresh 0 (.ok [sampleCoin "" (some (JSNum.fin 100))])
        (.ok [sampleCoin "" (some (JSNum.fin 200))]) (.ok []) = .ok o ∧
      (o.returned.map (fun c : Coin => c.address)).count (JSVal.str "") = 1 ∧
      ∃ e ∈ o.returned, e.address = JSVal.str "" ∧
        ([sampleCoin "" (some (JSNum.fin 100))] ++ [sampleCoin "" (some (JSNum.fin 200))] ++
            ([] : List Coin)).find?
          (fun c => decide (c.address = JSVal.str "")) = some e :=
  match fetchAllData_empty_address_deduplicated 0 [sampleCoin "" (some (JSNum.fin 100))]
      [sampleCoin "" (some (JSNum.fin 200))] [] with
  | ⟨o, ho, _, h⟩ =>
    ⟨o, ho, h ⟨sampleCoin "" (some (JSNum.fin 100)), by decide, by decide⟩ (by decide)⟩

/-- C10, as stated, fails: with the snapshot [X aged 100] stored at 8000, the tick
that fires at 10000 is 2000 ms into the window; it calls no adapter, keeps the
snapshot and `lastFetch = 8000`, and broadcasts the stored snapshot. -/
theorem tick_inside_window_does_not_refresh :
    tick { pumpCoins := scenarioA, lastFetch := 8000 } 10000
        (.ok scenarioB) (.ok []) (.ok []) 1 =
      .ok { fetched := { returned := scenarioA
                         cache := { pumpCoins := scenarioA, lastFetch := 8000 }
                         invoked := [] }
            broadcast := some scenarioA } := by
  decide

/-- C10, amended: the tick calls `fetchAllData`. When the stored snapshot is
non-empty and `now - lastFetch` is below `CACHE_DURATION` it calls no adapter and
leaves the cache as it was; otherwise (window elapsed, or empty snapshot) it performs
a full refresh: all three adapters called, snapshot replaced by the new merge,
`lastFetch` set to the tick time. In both cases it broadcasts the stored snapshot
when a client is connected. -/
theorem tick_refreshes_iff_stale_or_empty (s : Cache) (now : Int)
    (dex gecko pump : Settled (List Coin)) (clients : Nat) :
    (s.pumpCoins ≠ [] → now - s.lastFetch < CACHE_DURATION →
      tick s now dex gecko pump clients =
        .ok { fetched := { returned := s.pumpCoins, cache := s, invoked := [] }
              broadcast := if clients > 0 then some s.pumpCoins else none }) ∧
    ((s.pumpCoins = [] ∨ CACHE_DURATION ≤ now - s.lastFetch) →
      ∃ o, tick s now dex gecko pump clients =
          .ok { fetched := o
                broadcast := if clients > 0 then some o.cache.pumpCoins else none } ∧
        o.invoked = [Adapter.fetchDexScreener, Adapter.fetchGeckoTerminal,
          Adapter.fetchPumpFun] ∧
        o.cache.lastFetch = now ∧
        o.cache.pumpCoins =
          mergeSortCap (contributed dex) (contributed gecko) (contributed pump) ∧
        o.returned = o.cache.pumpCoins) := by
  constructor
  · intro hne hfresh
    have hlen : s.pumpCoins.length > 0 := List.length_pos.2 hne
    unfold tick fetchAllData
    rw [if_pos ⟨hfresh, hlen⟩]
    rfl
  · intro h
    have hcond : ¬ (now - s.lastFetch < CACHE_DURATION ∧ s.pumpCoins.length > 0) := by
      rintro ⟨h1, h2⟩
      rcases h with h | h
      · simp [h] at h2
      · omega
    refine ⟨{ returned := mergeSortCap (contributed dex) (contributed gecko) (contributed pump)
              cache :=
                { pumpCoins :=
                    mergeSortCap (contributed dex) (contributed gecko) (contributed pump)
                  lastFetch := now }
              invoked := [Adapter.fetchDexScreener, Adapter.fetchGeckoTerminal,
                Adapter.fetchPumpFun] }, ?_, rfl, rfl, rfl, rfl⟩
    unfold tick fetchAllData
    rw [if_neg hcond, refresh_eq]
    rfl

/-- C10, amended, at concrete states: the tick of the counterexample leaves the
cache alone, and the tick at 13000 (window elapsed) refreshes it. -/
theorem tick_refreshes_iff_stale_or_empty_witness :
    (scenarioA ≠ [] ∧ (10000 : Int) - 8000 < CACHE_DURATION ∧
      tick { pumpCoins := scenarioA, lastFetch := 8000 } 10000
          (.ok scenarioB) (.ok []) (.ok []) 1 =
        .ok { fetched := { returned := scenarioA
                           cache := { pumpCoins := scenarioA, lastFetch := 8000 }
                           invoked := [] }
              broadcast := if 1 > 0 then some scenarioA else none }) ∧
    (CACHE_DURATION ≤ (13000 : Int) - 8000 ∧
      ∃ o, tick { pumpCoins := scenarioA, lastFetch := 8000 } 13000
            (.ok scenarioB) (.ok []) (.ok []) 1 =
          .ok { fetched := o
                broadcast := if 1 > 0 then some o.cache.pumpCoins else none } ∧
        o.invoked = [Adapter.fetchDexScreener, Adapter.fetchGeckoTerminal,
          Adapter.fetchPumpFun] ∧
        o.cache.lastFetch = 13000 ∧
        o.cache.pumpCoins =
          mergeSortCap (contributed (.ok scenarioB)) (contributed (.ok []))
            (contributed (.ok [])) ∧
        o.returned = o.cache.pumpCoins) :=
  ⟨⟨by decide, by decide,
      (tick_refreshes_iff_stale_or_empty { pumpCoins := scenarioA, lastFetch := 8000 } 10000
        (.ok scenarioB) (.ok []) (.ok []) 1).1 (by decide) (by decide)⟩,
    ⟨by decide,
      (tick_refreshes_iff_stale_or_empty { pumpCoins := scenarioA, lastFetch := 8000 } 13000
        (.ok scenarioB) (.ok []) (.ok []) 1).2 (Or.inr (by decide))⟩⟩

/-- C5, as stated, fails on a negative market cap: for the DexScreener pair with
`fdv = -69000` (and the pump.fun coin with `usd_market_cap = -69000`) the emitted
market cap is -69000 and the emitted progress is -100, neither 0 nor inside
[0, 100]. -/
theorem progress_negative_for_negative_mcap :
    (processDexPair exampleBuiltins
        { bareDexPair with fdv := JSVal.num (JSNum.fin (-69000)) } 0).mcap =
      JSVal.num (JSNum.fin (-69000)) ∧
    (processDexPair exampleBuiltins
        { bareDexPair with fdv := JSVal.num (JSNum.fin (-69000)) } 0).progress =
      JSNum.fin (-100) ∧
    (pumpFunCoin exampleBuiltins
        { barePumpCoin with usd_market_cap := JSVal.num (JSNum.fin (-69000)) } 0).progress =
      JSNum.fin (-100) ∧
    (-100 : ℚ) < 0 := by
  refine ⟨?_, ?_, ?_, by norm_num⟩
  · simp [processDexPair, bareDexPair, JSVal.parseFloat, JSNum.orZero, JSNum.truthy]
  · simp [processDexPair, bareDexPair, JSVal.parseFloat, JSNum.orZero, JSNum.truthy,
      progressOf, JSNum.divConst, JSNum.mulConst, JSNum.minConst, GRADUATION_MCAP]
  · simp [pumpFunCoin, barePumpCoin, JSVal.or, JSVal.truthy, JSVal.toNumber, JSNum.truthy,
      progressOf, JSNum.divConst, JSNum.mulConst, JSNum.minConst, GRADUATION_MCAP]

/-- C5, amended: in all three normalisers the emitted progress is
`Math.min(mcap / 69000 * 100, 100)` of the emitted market cap, with no lower clamp
(in `processDexPair` and the GeckoTerminal mapping the market cap is always a finite
number). For a numeric market cap `q` this value is at most 100, is exactly 100 when
`q >= 69000`, is exactly 0 when `q = 0`, is at least 0 when `q >= 0`, and is the
negative number `q / 69000 * 100` when `q < 0`. -/
theorem progress_is_min_with_100 (js : Builtins) (now : Int) :
    (∀ p : DexPair, ∃ q : ℚ,
      (processDexPair js p now).mcap = JSVal.num (JSNum.fin q) ∧
      (processDexPair js p now).progress = progressOf (JSNum.fin q)) ∧
    (∀ (pool : GeckoPool) (c : Coin), geckoPoolCoin js pool now = .ok (some c) →
      ∃ q : ℚ, c.mcap = JSVal.num (JSNum.fin q) ∧ c.progress = progressOf (JSNum.fin q)) ∧
    (∀ c : PumpCoin,
      (pumpFunCoin js c now).progress = progressOf ((pumpFunCoin js c now).mcap.toNumber js)) ∧
    (∀ q : ℚ, ∃ r : ℚ, progressOf (JSNum.fin q) = JSNum.fin r ∧
      r = min (q / 69000 * 100) 100 ∧ r ≤ 100 ∧
      (69000 ≤ q → r = 100) ∧ (q = 0 → r = 0) ∧ (0 ≤ q → 0 ≤ r) ∧
      (q < 0 → r = q / 69000 * 100 ∧ r < 0)) := by
  refine ⟨?_, ?_, fun c => rfl, ?_⟩
  · intro p
    obtain ⟨q, hq⟩ := JSNum.orZero_eq_fin (p.fdv.parseFloat js)
    exact ⟨q, by simp [processDexPair, hq], by simp [processDexPair, hq]⟩
  · intro pool c h
    obtain ⟨dexId, _, _, _, hm, hp, _⟩ := geckoPoolCoin_fields h
    obtain ⟨q, hq⟩ := JSNum.orZero_eq_fin (pool.fdv_usd.parseFloat js)
    exact ⟨q, by rw [hm, hq], by rw [hp, hq]⟩
  · intro q
    refine ⟨min (q / 69000 * 100) 100, progressOf_fin q, rfl, min_le_right _ _, ?_, ?_, ?_, ?_⟩
    · intro h
      apply min_eq_right
      have : (1 : ℚ) ≤ q / 69000 := by
        rw [le_div_iff₀ (by norm_num)]
        linarith
      linarith
    · intro h
      subst h
      norm_num
    · intro h
      apply le_min _ (by norm_num)
      have : (0 : ℚ) ≤ q / 69000 := div_nonneg h (by norm_num)
      linarith
    · intro h
      have h1 : q / 69000 < 0 := div_neg_of_neg_of_pos h (by norm_num)
      have h2 : q / 69000 * 100 < 0 := by linarith
      exact ⟨min_eq_left (by linarith), by rw [min_eq_left (by linarith)]; exact h2⟩

/-- C5, amended, at concrete records: a GeckoTerminal pool with `fdv_usd = 34500`
is emitted with progress 50, and market cap -69000 gives progress -100. -/
theorem progress_is_min_with_100_witness :
    geckoPoolCoin exampleBuiltins
        { bareGeckoPool with fdv_usd := JSVal.num (JSNum.fin 34500) } 0 ≠ .ok none ∧
    (∀ c : Coin, geckoPoolCoin exampleBuiltins
        { bareGeckoPool with fdv_usd := JSVal.num (JSNum.fin 34500) } 0 = .ok (some c) →
      c.mcap = JSVal.num (JSNum.fin 34500) ∧ c.progress = JSNum.fin 50) ∧
    (∃ r : ℚ, progressOf (JSNum.fin (-69000)) = JSNum.fin r ∧ r < 0) := by
  have h := progress_is_min_with_100 exampleBuiltins 0
  refine ⟨by decide, ?_, ?_⟩
  · intro c hc
    obtain ⟨_, _, _, _, hm, hp, _⟩ := geckoPoolCoin_fields hc
    constructor
    · rw [hm]
      simp [bareGeckoPool, JSVal.parseFloat, JSNum.orZero, JSNum.truthy]
    · rw [hp]
      simp [bareGeckoPool, JSVal.parseFloat, JSNum.orZero, JSNum.truthy,
        progressOf, JSNum.divConst, JSNum.mulConst, JSNum.minConst, GRADUATION_MCAP]
      norm_num
  · obtain ⟨r, hr, _, _, _, _, _, hneg⟩ := h.2.2.2 (-69000)
    exact ⟨r, hr, (hneg (by norm_num)).2⟩

/-- What holds of `created` and `age` in all three normalisers: with a truthy
creation field, `created` is that time and `age` is `now` minus it; with a falsy
one, `created` is `now`, and `age` is `null` in `processDexPair` and the
GeckoTerminal mapping. -/
theorem created_and_age_fields (js : Builtins) (now : Int) :
    (∀ p : DexPair,
      (p.pairCreatedAt.truthy = true →
        (processDexPair js p now).created = p.pairCreatedAt ∧
        (processDexPair js p now).age =
          some ((JSNum.fin now).sub (p.pairCreatedAt.toNumber js))) ∧
      (p.pairCreatedAt.truthy = false →
        (processDexPair js p now).created = JSVal.num (JSNum.fin now) ∧
        (processDexPair js p now).age = none)) ∧
    (∀ (pool : GeckoPool) (c : Coin), geckoPoolCoin js pool now = .ok (some c) →
      (pool.pool_created_at.truthy = true →
        c.created = JSVal.num (dateGetTime js pool.pool_created_at) ∧
        c.age = some ((JSNum.fin now).sub (dateGetTime js pool.pool_created_at))) ∧
      (pool.pool_created_at.truthy = false →
        c.created = JSVal.num (JSNum.fin now) ∧ c.age = none)) ∧
    (∀ c : PumpCoin,
      (c.created_timestamp.truthy = true →
        (pumpFunCoin js c now).created = c.created_timestamp ∧
        (pumpFunCoin js c now).age =
          some ((JSNum.fin now).sub (c.created_timestamp.toNumber js))) ∧
      (c.created_timestamp.truthy = false →
        (pumpFunCoin js c now).created = JSVal.num (JSNum.fin now) ∧
        (pumpFunCoin js c now).age = some (JSNum.fin 0))) := by
  refine ⟨fun p => ⟨fun h => ?_, fun h => ?_⟩, fun pool c hc => ?_,
    fun c => ⟨fun h => ?_, fun h => ?_⟩⟩
  · simp [processDexPair, JSVal.or, h]
  · simp [processDexPair, JSVal.or, h]
  · obtain ⟨_, _, _, _, _, _, _, hage, hcreated, _⟩ := geckoPoolCoin_fields hc
    constructor
    · intro h
      simp [hage, hcreated, h]
    · intro h
      simp [hage, hcreated, h]
  · simp [pumpFunCoin, JSVal.or, h]
  · simp [pumpFunCoin, JSVal.or, h]

/-- C8: the pump.fun mapping emits age 0, not `null`, for a coin that carries no
creation time. For the coin with a mint and no `created_timestamp`, mapped at
`now = 1000`, `created` is 1000 and `age` is the number 0; for a DexScreener pair
and a GeckoTerminal pool without creation time, mapped at the same time, `created`
is 1000 and `age` is `null`. -/
theorem pumpFunCoin_unknown_age_is_zero :
    barePumpCoin.created_timestamp = JSVal.undefined ∧
    (pumpFunCoin exampleBuiltins barePumpCoin 1000).created = JSVal.num (JSNum.fin 1000) ∧
    (pumpFunCoin exampleBuiltins barePumpCoin 1000).age = some (JSNum.fin 0) ∧
    (pumpFunCoin exampleBuiltins barePumpCoin 1000).age ≠ none ∧
    (processDexPair exampleBuiltins bareDexPair 1000).created = JSVal.num (JSNum.fin 1000) ∧
    (processDexPair exampleBuiltins bareDexPair 1000).age = none ∧
    (geckoPoolCoin exampleBuiltins bareGeckoPool 1000).map
        (fun r => r.map (fun c => (c.created, c.age))) =
      .ok (some (JSVal.num (JSNum.fin 1000), none)) := by
  decide

/-- C9, as stated, fails for the pump.fun mapping: a coin with
`usd_market_cap = 100000` and neither `complete` nor `raydium_pool` is emitted with
`graduated = false` although its market cap is above 69000; and a coin whose
`raydium_pool` is the string `'pool'` is emitted with `graduated = 'pool'`, which is
not the boolean `true`. -/
theorem pumpFunCoin_graduated_ignores_mcap :
    (pumpFunCoin exampleBuiltins
        { barePumpCoin with usd_market_cap := JSVal.num (JSNum.fin 100000) } 0).mcap =
      JSVal.num (JSNum.fin 100000) ∧
    (JSNum.fin 100000).geConst GRADUATION_MCAP = true ∧
    (pumpFunCoin exampleBuiltins
        { barePumpCoin with usd_market_cap := JSVal.num (JSNum.fin 100000) } 0).graduated =
      JSVal.bool false ∧
    (pumpFunCoin exampleBuiltins
        { barePumpCoin with raydium_pool := JSVal.str "pool" } 0).graduated =
      JSVal.str "pool" := by
  decide

/-- C9, amended: in `processDexPair` and in the GeckoTerminal mapping the emitted
`graduated` is a boolean, and it is `true` if and only if the venue is raydium or
the emitted market cap is at least 69000. In the pump.fun mapping `graduated` is
`c.complete || c.raydium_pool || false`: it is truthy if and only if `complete` or
`raydium_pool` is truthy, whatever the market cap. -/
theorem graduated_flag (js : Builtins) (now : Int) :
    (∀ p : DexPair, ∃ q : ℚ,
      (processDexPair js p now).mcap = JSVal.num (JSNum.fin q) ∧
      (processDexPair js p now).dex = p.dexId ∧
      ((processDexPair js p now).graduated = JSVal.bool true ↔
        (p.dexId = JSVal.str "raydium" ∨ 69000 ≤ q)) ∧
      ((processDexPair js p now).graduated = JSVal.bool true ∨
        (processDexPair js p now).graduated = JSVal.bool false)) ∧
    (∀ (pool : GeckoPool) (c : Coin), geckoPoolCoin js pool now = .ok (some c) →
      ∃ q : ℚ, c.mcap = JSVal.num (JSNum.fin q) ∧
        (c.graduated = JSVal.bool true ↔ (c.dex = JSVal.str "raydium" ∨ 69000 ≤ q)) ∧
        (c.graduated = JSVal.bool true ∨ c.graduated = JSVal.bool false)) ∧
    (∀ c : PumpCoin,
      (pumpFunCoin js c now).graduated =
        (c.complete.or c.raydium_pool).or (JSVal.bool false) ∧
      ((pumpFunCoin js c now).graduated.truthy = true ↔
        (c.complete.truthy = true ∨ c.raydium_pool.truthy = true))) := by
  have hbool : ∀ b : Bool, JSVal.bool b = JSVal.bool true ∨ JSVal.bool b = JSVal.bool false := by
    intro b
    cases b <;> simp
  refine ⟨?_, ?_, ?_⟩
  · intro p
    obtain ⟨q, hq⟩ := JSNum.orZero_eq_fin (p.fdv.parseFloat js)
    refine ⟨q, by simp [processDexPair, hq], rfl, ?_, hbool _⟩
    simp only [processDexPair, hq, JSVal.bool.injEq, Bool.or_eq_true, strictEq_str_iff,
      JSNum.geConst, GRADUATION_MCAP, decide_eq_true_eq]
  · intro pool c h
    obtain ⟨dexId, _, _, hdex, hm, _, hg, _⟩ := geckoPoolCoin_fields h
    obtain ⟨q, hq⟩ := JSNum.orZero_eq_fin (pool.fdv_usd.parseFloat js)
    refine ⟨q, by rw [hm, hq], ?_, by rw [hg]; exact hbool _⟩
    rw [hg, hdex, hq]
    simp only [JSVal.bool.injEq, Bool.or_eq_true, JSNum.geConst, GRADUATION_MCAP,
      decide_eq_true_eq, JSVal.str.injEq]
  · intro c
    refine ⟨rfl, ?_⟩
    show ((c.complete.or c.raydium_pool).or (JSVal.bool false)).truthy = true ↔ _
    rw [JSVal.truthy_or, JSVal.truthy_or]
    simp [JSVal.truthy]

/-- C9, amended, at concrete records: a GeckoTerminal pool on a raydium dex is
emitted with `graduated = true`, as is a pump.fun coin whose `complete` is true. -/
theorem graduated_flag_witness :
    geckoPoolCoin exampleBuiltins
        { bareGeckoPool with dexDataId := JSVal.str "raydium-clmm" } 0 ≠ .ok none ∧
    (∀ c : Coin, geckoPoolCoin exampleBuiltins
        { bareGeckoPool with dexDataId := JSVal.str "raydium-clmm" } 0 = .ok (some c) →
      c.dex = JSVal.str "raydium" ∧ c.graduated = JSVal.bool true) ∧
    (pumpFunCoin exampleBuiltins
        { barePumpCoin with complete := JSVal.bool true } 0).graduated.truthy = true := by
  have h := graduated_flag exampleBuiltins 0
  refine ⟨by decide, ?_, ?_⟩
  · intro c hc
    obtain ⟨q, _, hiff, _⟩ := h.2.1 _ c hc
    obtain ⟨dexId, hd, _, hdex, _⟩ := geckoPoolCoin_fields hc
    have hid : dexId = "raydium" := by
      have : geckoDexId { bareGeckoPool with dexDataId := JSVal.str "raydium-clmm" } =
          .ok "raydium" := by decide
      rw [this] at hd
      exact (Except.ok.inj hd).symm
    rw [hid] at hdex
    exact ⟨hdex, hiff.2 (Or.inl hdex)⟩
  · exact (h.2.2 { barePumpCoin with complete := JSVal.bool true }).2.2 (Or.inl rfl)

/-- C11, as stated, fails: with the snapshot [X aged 100] stored at 0, the call at
10000 in which all three adapters reject replaces the snapshot by the empty array
and moves `lastFetch` to 10000. -/
theorem fetchAllData_total_failure_overwrites :
    scenarioA ≠ [] ∧
    fetchAllData { pumpCoins := scenarioA, lastFetch := 0 } 10000
        (.error "timeout") (.error "timeout") (.error "blocked") =
      .ok { returned := []
            cache := { pumpCoins := [], lastFetch := 10000 }
            invoked := [Adapter.fetchDexScreener, Adapter.fetchGeckoTerminal,
              Adapter.fetchPumpFun] } := by
  decide

/-- C11, amended: a refresh in which every adapter rejects does not reject; it
stores the empty snapshot and sets `lastFetch` to `now`, whatever was stored before.
A populated snapshot stays as it was only when the call is served from the cache,
that is inside the window, where no adapter is called. -/
theorem fetchAllData_total_failure_stores_empty (s : Cache) (now : Int) (e1 e2 e3 : String) :
    (CACHE_DURATION ≤ now - s.lastFetch ∨ s.pumpCoins = [] →
      fetchAllData s now (.error e1) (.error e2) (.error e3) =
        .ok { returned := []
              cache := { pumpCoins := [], lastFetch := now }
              invoked := [Adapter.fetchDexScreener, Adapter.fetchGeckoTerminal,
                Adapter.fetchPumpFun] }) ∧
    (now - s.lastFetch < CACHE_DURATION → s.pumpCoins ≠ [] →
      fetchAllData s now (.error e1) (.error e2) (.error e3) =
        .ok { returned := s.pumpCoins, cache := s, invoked := [] }) := by
  constructor
  · intro h
    have hcond : ¬ (now - s.lastFetch < CACHE_DURATION ∧ s.pumpCoins.length > 0) := by
      rintro ⟨h1, h2⟩
      rcases h with h | h
      · omega
      · simp [h] at h2
    unfold fetchAllData
    rw [if_neg hcond, refresh_eq]
    rfl
  · intro hfresh hne
    have hlen : s.pumpCoins.length > 0 := List.length_pos.2 hne
    unfold fetchAllData
    rw [if_pos ⟨hfresh, hlen⟩]
    rfl

/-- C11, amended, at the state of the counterexample: the populated snapshot is
overwritten at 10000 and served unchanged at 3000. -/
theorem fetchAllData_total_failure_stores_empty_witness :
    CACHE_DURATION ≤ (10000 : Int) - 0 ∧
    fetchAllData { pumpCoins := scenarioA, lastFetch := 0 } 10000
        (.error "timeout") (.error "timeout") (.error "blocked") =
      .ok { returned := []
            cache := { pumpCoins := [], lastFetch := 10000 }
            invoked := [Adapter.fetchDexScreener, Adapter.fetchGeckoTerminal,
              Adapter.fetchPumpFun] } ∧
    (3000 : Int) - 0 < CACHE_DURATION ∧ scenarioA ≠ [] ∧
    fetchAllData { pumpCoins := scenarioA, lastFetch := 0 } 3000
        (.error "timeout") (.error "timeout") (.error "blocked") =
      .ok { returned := scenarioA
            cache := { pumpCoins := scenarioA, lastFetch := 0 }
            invoked := [] } :=
  ⟨by decide,
    (fetchAllData_total_failure_stores_empty { pumpCoins := scenarioA, lastFetch := 0 } 10000
      "timeout" "timeout" "blocked").1 (Or.inl (by decide)),
    by decide, by decide,
    (fetchAllData_total_failure_stores_empty { pumpCoins := scenarioA, lastFetch := 0 } 3000
      "timeout" "timeout" "blocked").2 (by decide) (by decide)⟩

/-- C12: when `now - lastFetch` is at least `CACHE_DURATION`, and in the initial
state at any time, `fetchAllData` calls each of the three adapters exactly once,
stores the new merge result in place of the old snapshot, sets `lastFetch` to `now`
and resolves with the snapshot it has just stored. -/
theorem fetchAllData_refreshes_when_stale_or_initial (s : Cache) (now : Int)
    (dex gecko pump : Settled (List Coin))
    (h : CACHE_DURATION ≤ now - s.lastFetch ∨ s = Cache.initial) :
    ∃ o, fetchAllData s now dex gecko pump = .ok o ∧
      (∀ a : Adapter, o.invoked.count a = 1) ∧
      o.cache.pumpCoins =
        mergeSortCap (contributed dex) (contributed gecko) (contributed pump) ∧
      o.cache.lastFetch = now ∧
      o.returned = o.cache.pumpCoins := by
  have hcond : ¬ (now - s.lastFetch < CACHE_DURATION ∧ s.pumpCoins.length > 0) := by
    rintro ⟨h1, h2⟩
    rcases h with h | h
    · omega
    · subst h
      simp [Cache.initial] at h2
  refine ⟨{ returned := mergeSortCap (contributed dex) (contributed gecko) (contributed pump)
            cache :=
              { pumpCoins :=
                  mergeSortCap (contributed dex) (contributed gecko) (contributed pump)
                lastFetch := now }
            invoked := [Adapter.fetchDexScreener, Adapter.fetchGeckoTerminal,
              Adapter.fetchPumpFun] }, ?_, ?_, rfl, rfl, rfl⟩
  · unfold fetchAllData
    rw [if_neg hcond, refresh_eq]
  · intro a
    show [Adapter.fetchDexScreener, Adapter.fetchGeckoTerminal, Adapter.fetchPumpFun].count a = 1
    cases a <;> decide

/-- C12 at concrete calls: the first call, in the initial state at time 1000, and
a call 5000 ms after the last fetch both refresh. -/
theorem fetchAllData_refreshes_when_stale_or_initial_witness :
    (∃ o, fetchAllData Cache.initial 1000 (.ok scenarioA) (.ok scenarioB) (.error "blocked") =
        .ok o ∧
      (∀ a : Adapter, o.invoked.count a = 1) ∧
      o.cache.pumpCoins =
        mergeSortCap (contributed (.ok scenarioA)) (contributed (.ok scenarioB))
          (contributed (.error "blocked")) ∧
      o.cache.lastFetch = 1000 ∧
      o.returned = o.cache.pumpCoins) ∧
    (∃ o, fetchAllData { pumpCoins := scenarioA, lastFetch := 1000 } 6000
        (.ok scenarioB) (.ok []) (.ok []) = .ok o ∧
      (∀ a : Adapter, o.invoked.count a = 1) ∧
      o.cache.pumpCoins =
        mergeSortCap (contributed (.ok scenarioB)) (contributed (.ok [])) (contributed (.ok [])) ∧
      o.cache.lastFetch = 6000 ∧
      o.returned = o.cache.pumpCoins) :=
  ⟨fetchAllData_refreshes_when_stale_or_initial Cache.initial 1000 (.ok scenarioA)
      (.ok scenarioB) (.error "blocked") (Or.inr rfl),
    fetchAllData_refreshes_when_stale_or_initial { pumpCoins := scenarioA, lastFetch := 1000 }
      6000 (.ok scenarioB) (.ok []) (.ok []) (Or.inl (by decide))⟩

/-! ## The adapter loops -/

theorem strictEq_iff (a b : JSVal) :
    a.strictEq b = true ↔ a = b ∧ a ≠ JSVal.num JSNum.nan := by
  simp [JSVal.strictEq]

theorem strictEq_of_truthy {a b : JSVal} (hb : b.truthy = true) :
    a.strictEq b = true ↔ a = b := by
  rw [strictEq_iff]
  constructor
  · exact fun h => h.1
  · intro h
    refine ⟨h, ?_⟩
    subst h
    intro hn
    rw [hn] at hb
    simp [JSVal.truthy, JSNum.truthy] at hb

theorem or_empty_truthy_or_empty (a : JSVal) :
    (a.truthy = true ∧ a.or (JSVal.str "") = a) ∨
      (a.truthy = false ∧ a.or (JSVal.str "") = JSVal.str "") := by
  unfold JSVal.or
  cases h : a.truthy <;> simp

theorem processDexPair_address (js : Builtins) (p : DexPair) (now : Int) :
    (processDexPair js p now).address = p.baseTokenAddress.or (JSVal.str "") := rfl

/-- The address `processDexPair` emits is a truthy value or the empty string; it is
never `undefined` and never `NaN`. -/
theorem processDexPair_address_cases (js : Builtins) (p : DexPair) (now : Int) :
    ((processDexPair js p now).address.truthy = true ∨
        (processDexPair js p now).address = JSVal.str "") ∧
      (processDexPair js p now).address ≠ JSVal.undefined ∧
      (processDexPair js p now).address ≠ JSVal.num JSNum.nan := by
  rw [processDexPair_address]
  rcases or_empty_truthy_or_empty p.baseTokenAddress with ⟨ht, he⟩ | ⟨_, he⟩
  · rw [he]
    refine ⟨Or.inl ht, ?_, ?_⟩
    · intro h
      rw [h] at ht
      simp [JSVal.truthy] at ht
    · intro h
      rw [h] at ht
      simp [JSVal.truthy, JSNum.truthy] at ht
  · rw [he]
    exact ⟨Or.inr rfl, by simp, by simp⟩

theorem find_strictEq_eq_none {coins : List Coin} {v : JSVal} :
    coins.find? (fun c => c.address.strictEq v) = none ↔
      ∀ c ∈ coins, c.address.strictEq v = false := by
  simp [List.find?_eq_none]

theorem searchPush_eq (js : Builtins) (now : Int) (coins : List Coin) (p : DexPair)
    (hq : qualifies p = true) :
    ((∃ c ∈ coins, c.address.strictEq p.baseTokenAddress = true) →
      searchPush js now coins p = coins) ∧
    ((∀ c ∈ coins, c.address.strictEq p.baseTokenAddress = false) →
      searchPush js now coins p = coins ++ [processDexPair js p now]) := by
  unfold searchPush
  rw [if_pos hq]
  constructor
  · rintro ⟨c, hc, hce⟩
    cases hf : coins.find? (fun c => c.address.strictEq p.baseTokenAddress) with
    | some x => rfl
    | none =>
      rw [find_strictEq_eq_none] at hf
      rw [hf c hc] at hce
      exact absurd hce (by simp)
  · intro h
    rw [find_strictEq_eq_none.2 h]

theorem searchPush_of_not_qualifies (js : Builtins) (now : Int) (coins : List Coin)
    (p : DexPair) (hq : qualifies p = false) : searchPush js now coins p = coins := by
  unfold searchPush
  simp [hq]

/-- Both outcomes of the search callback leave the collected listings in place. -/
theorem searchPush_extends (js : Builtins) (now : Int) (coins : List Coin) (p : DexPair) :
    searchPush js now coins p = coins ∨
      (qualifies p = true ∧ searchPush js now coins p = coins ++ [processDexPair js p now] ∧
        ∀ c ∈ coins, c.address.strictEq p.baseTokenAddress = false) := by
  cases hq : qualifies p with
  | false => exact Or.inl (searchPush_of_not_qualifies js now coins p hq)
  | true =>
    by_cases h : ∃ c ∈ coins, c.address.strictEq p.baseTokenAddress = true
    · exact Or.inl ((searchPush_eq js now coins p hq).1 h)
    · have h2 : ∀ c ∈ coins, c.address.strictEq p.baseTokenAddress = false := by
        intro c hc
        cases hs : c.address.strictEq p.baseTokenAddress with
        | false => rfl
        | true => exact absurd ⟨c, hc, hs⟩ h
      exact Or.inr ⟨rfl, (searchPush_eq js now coins p hq).2 h2, h2⟩

/-- C17: in the search phase of `fetchDexScreener`, with `coins` the listings
collected so far (each produced by `processDexPair`, in the boosts phase, an earlier
query or earlier in this payload), a qualifying pair is skipped if and only if some
collected listing has the pair's `baseToken.address` as its address; otherwise its
listing is pushed behind the collected ones. A pair whose `baseToken.address` is
`undefined` is never skipped, and the collected listings stay where they are, so the
first listing collected for an address is the one kept. -/
theorem searchPush_skips_iff_address_collected (js : Builtins) (now : Int)
    (coins : List Coin) (p : DexPair) (hq : qualifies p = true)
    (hc : ∀ c ∈ coins, ∃ p' : DexPair, c = processDexPair js p' now) :
    (searchPush js now coins p = coins ↔ ∃ c ∈ coins, c.address = p.baseTokenAddress) ∧
    ((¬ ∃ c ∈ coins, c.address = p.baseTokenAddress) →
      searchPush js now coins p = coins ++ [processDexPair js p now]) ∧
    (p.baseTokenAddress = JSVal.undefined →
      searchPush js now coins p = coins ++ [processDexPair js p now]) ∧
    coins <+: searchPush js now coins p := by
  have hstrict : ∀ c ∈ coins,
      (c.address.strictEq p.baseTokenAddress = true ↔ c.address = p.baseTokenAddress) := by
    intro c hcm
    obtain ⟨p', rfl⟩ := hc c hcm
    rw [strictEq_iff]
    exact ⟨fun h => h.1, fun h => ⟨h, (processDexPair_address_cases js p' now).2.2⟩⟩
  have hpush : (¬ ∃ c ∈ coins, c.address = p.baseTokenAddress) →
      searchPush js now coins p = coins ++ [processDexPair js p now] := by
    intro hne
    apply (searchPush_eq js now coins p hq).2
    intro c hcm
    cases hs : c.address.strictEq p.baseTokenAddress with
    | false => rfl
    | true => exact absurd ⟨c, hcm, (hstrict c hcm).1 hs⟩ hne
  refine ⟨⟨?_, ?_⟩, hpush, ?_, ?_⟩
  · intro hskip
    by_contra hne
    have h := hpush hne
    rw [hskip] at h
    have hlen := congrArg List.length h
    simp at hlen
  · rintro ⟨c, hcm, hce⟩
    exact (searchPush_eq js now coins p hq).1 ⟨c, hcm, (hstrict c hcm).2 hce⟩
  · intro hu
    apply hpush
    rintro ⟨c, hcm, hce⟩
    obtain ⟨p', rfl⟩ := hc c hcm
    exact (processDexPair_address_cases js p' now).2.1 (hce.trans hu)
  · rcases searchPush_extends js now coins p with h | ⟨_, h, _⟩
    · rw [h]
    · rw [h]
      exact List.prefix_append _ _

/-- C17 at concrete pairs: with the listing of a pair of base token `A` collected,
a second qualifying pair of base token `A` is skipped, and a qualifying pair without
`baseToken.address` is pushed behind it. -/
theorem searchPush_skips_iff_address_collected_witness :
    qualifies { bareDexPair with baseTokenAddress := JSVal.str "A" } = true ∧
    searchPush exampleBuiltins 0
        [processDexPair exampleBuiltins { bareDexPair with baseTokenAddress := JSVal.str "A" } 0]
        { bareDexPair with baseTokenAddress := JSVal.str "A", dexId := JSVal.str "raydium" } =
      [processDexPair exampleBuiltins { bareDexPair with baseTokenAddress := JSVal.str "A" } 0] ∧
    searchPush exampleBuiltins 0
        [processDexPair exampleBuiltins { bareDexPair with baseTokenAddress := JSVal.str "A" } 0]
        bareDexPair =
      [processDexPair exampleBuiltins { bareDexPair with baseTokenAddress := JSVal.str "A" } 0] ++
        [processDexPair exampleBuiltins bareDexPair 0] :=
  have hc : ∀ c ∈ [processDexPair exampleBuiltins
      { bareDexPair with baseTokenAddress := JSVal.str "A" } 0],
      ∃ p' : DexPair, c = processDexPair exampleBuiltins p' 0 := by
    intro c hmem
    exact ⟨_, List.mem_singleton.1 hmem⟩
  ⟨by decide,
    (searchPush_skips_iff_address_collected exampleBuiltins 0 _
      { bareDexPair with baseTokenAddress := JSVal.str "A", dexId := JSVal.str "raydium" }
      (by decide) hc).1.2 ⟨_, List.mem_singleton.2 rfl, by decide⟩,
    (searchPush_skips_iff_address_collected exampleBuiltins 0 _ bareDexPair
      (by decide) hc).2.2.1 rfl⟩

theorem qualifies_iff (p : DexPair) :
    qualifies p = true ↔
      p.chainId = JSVal.str "solana" ∧
        (p.dexId = JSVal.str "pumpfun" ∨ p.dexId = JSVal.str "raydium") := by
  simp only [qualifies, Bool.and_eq_true, Bool.or_eq_true, strictEq_str_iff]

theorem boostsPush_foldl_mem (js : Builtins) (now : Int) (pairs : List DexPair)
    (init : List Coin) (c : Coin) (hc : c ∈ pairs.foldl (boostsPush js now) init) :
    c ∈ init ∨ ∃ p ∈ pairs, qualifies p = true ∧ c = processDexPair js p now := by
  induction pairs generalizing init with
  | nil => exact Or.inl hc
  | cons p pairs ih =>
    rw [List.foldl_cons] at hc
    rcases ih _ hc with h | ⟨p', hp', hq, he⟩
    · unfold boostsPush at h
      by_cases hq : qualifies p = true
      · rw [if_pos hq] at h
        rcases List.mem_append.1 h with h | h
        · exact Or.inl h
        · exact Or.inr ⟨p, List.mem_cons_self _ _, hq, List.mem_singleton.1 h⟩
      · rw [if_neg hq] at h
        exact Or.inl h
    · exact Or.inr ⟨p', List.mem_cons_of_mem _ hp', hq, he⟩

theorem searchPush_foldl_mem (js : Builtins) (now : Int) (pairs : List DexPair)
    (init : List Coin) (c : Coin) (hc : c ∈ pairs.foldl (searchPush js now) init) :
    c ∈ init ∨ ∃ p ∈ pairs, qualifies p = true ∧ c = processDexPair js p now := by
  induction pairs generalizing init with
  | nil => exact Or.inl hc
  | cons p pairs ih =>
    rw [List.foldl_cons] at hc
    rcases ih _ hc with h | ⟨p', hp', hq, he⟩
    · rcases searchPush_extends js now init p with hs | ⟨hq, hs, _⟩
      · rw [hs] at h
        exact Or.inl h
      · rw [hs] at h
        rcases List.mem_append.1 h with h | h
        · exact Or.inl h
        · exact Or.inr ⟨p, List.mem_cons_self _ _, hq, List.mem_singleton.1 h⟩
    · exact Or.inr ⟨p', List.mem_cons_of_mem _ hp', hq, he⟩

theorem boostsPhase_mem (js : Builtins) (now : Int) (boosts : Payload BoostToken)
    (tokenData : Payload DexPair) (c : Coin) (hc : c ∈ boostsPhase js now boosts tokenData) :
    ∃ p ∈ payloadRecords tokenData, qualifies p = true ∧ c = processDexPair js p now := by
  cases boosts with
  | error e => simp [boostsPhase] at hc
  | ok ob =>
    cases ob with
    | none => simp [boostsPhase] at hc
    | some bs =>
      cases tokenData with
      | error e => simp [boostsPhase] at hc
      | ok od =>
        cases od with
        | none => simp [boostsPhase] at hc
        | some pairs =>
          simp only [boostsPhase] at hc
          split_ifs at hc with hlen
          · rcases boostsPush_foldl_mem js now _ _ c hc with h | h
            · simp at h
            · simpa [payloadRecords] using h
          · simp at hc

theorem searchQuery_mem (js : Builtins) (now : Int) (coins : List Coin)
    (data : Payload DexPair) (c : Coin) (hc : c ∈ searchQuery js now coins data) :
    c ∈ coins ∨
      ∃ p ∈ payloadRecords data, qualifies p = true ∧ c = processDexPair js p now := by
  unfold searchQuery at hc
  split at hc
  · simpa [payloadRecords] using searchPush_foldl_mem js now _ _ c hc
  · exact Or.inl hc

/-- Every listing `fetchDexScreener` returns was built by `processDexPair` from a
qualifying pair of one of its payloads. -/
theorem fetchDexScreener_mem (js : Builtins) (now : Int) (boosts : Payload BoostToken)
    (tokenData searchPump searchNew searchMeme : Payload DexPair) (c : Coin)
    (hc : c ∈ fetchDexScreener js now boosts tokenData searchPump searchNew searchMeme) :
    ∃ p ∈ payloadRecords tokenData ++ payloadRecords searchPump ++ payloadRecords searchNew ++
        payloadRecords searchMeme,
      qualifies p = true ∧ c = processDexPair js p now := by
  unfold fetchDexScreener at hc
  simp only [List.foldl_cons, List.foldl_nil] at hc
  rcases searchQuery_mem js now _ _ c hc with h | ⟨p, hp, hq, he⟩
  · rcases searchQuery_mem js now _ _ c h with h | ⟨p, hp, hq, he⟩
    · rcases searchQuery_mem js now _ _ c h with h | ⟨p, hp, hq, he⟩
      · obtain ⟨p, hp, hq, he⟩ := boostsPhase_mem js now boosts tokenData c h
        exact ⟨p, by simp [hp], hq, he⟩
      · exact ⟨p, by simp [hp], hq, he⟩
    · exact ⟨p, by simp [hp], hq, he⟩
  · exact ⟨p, by simp [hp], hq, he⟩

theorem nonEmptyAddresses_append_singleton (coins : List Coin) (x : Coin) :
    nonEmptyAddresses (coins ++ [x]) =
      nonEmptyAddresses coins ++ (if x.address = JSVal.str "" then [] else [x.address]) := by
  unfold nonEmptyAddresses
  by_cases h : x.address = JSVal.str ""
  · simp [List.filter_append, h]
  · simp [List.filter_append, List.filter_cons, h]

theorem searchPush_nodup (js : Builtins) (now : Int) (coins : List Coin) (p : DexPair)
    (h : (nonEmptyAddresses coins).Nodup) :
    (nonEmptyAddresses (searchPush js now coins p)).Nodup := by
  rcases searchPush_extends js now coins p with hs | ⟨_, hs, hnot⟩
  · rw [hs]
    exact h
  · rw [hs, nonEmptyAddresses_append_singleton]
    by_cases he : (processDexPair js p now).address = JSVal.str ""
    · simpa [he] using h
    · rw [if_neg he]
      rcases or_empty_truthy_or_empty p.baseTokenAddress with ⟨ht, hor⟩ | ⟨_, hor⟩
      · rw [processDexPair_address, hor]
        apply List.Nodup.append h (List.nodup_singleton _)
        intro a ha1 ha2
        rw [List.mem_singleton] at ha2
        subst ha2
        obtain ⟨c, hc, hca⟩ := List.mem_map.1 (List.mem_of_mem_filter ha1)
        have := hnot c hc
        rw [(strictEq_of_truthy ht).2 hca] at this
        exact absurd this (by simp)
      · exact absurd (by rw [processDexPair_address, hor]) he

theorem searchPush_foldl_nodup (js : Builtins) (now : Int) (pairs : List DexPair)
    (coins : List Coin) (h : (nonEmptyAddresses coins).Nodup) :
    (nonEmptyAddresses (pairs.foldl (searchPush js now) coins)).Nodup := by
  induction pairs generalizing coins with
  | nil => exact h
  | cons p pairs ih => exact ih _ (searchPush_nodup js now coins p h)

theorem searchQuery_nodup (js : Builtins) (now : Int) (coins : List Coin)
    (data : Payload DexPair) (h : (nonEmptyAddresses coins).Nodup) :
    (nonEmptyAddresses (searchQuery js now coins data)).Nodup := by
  unfold searchQuery
  split
  · exact searchPush_foldl_nodup js now _ coins h
  · exact h

theorem fetchDexScreener_nodup (js : Builtins) (now : Int) (boosts : Payload BoostToken)
    (tokenData searchPump searchNew searchMeme : Payload DexPair)
    (h : (nonEmptyAddresses (boostsPhase js now boosts tokenData)).Nodup) :
    (nonEmptyAddresses
      (fetchDexScreener js now boosts tokenData searchPump searchNew searchMeme)).Nodup := by
  unfold fetchDexScreener
  simp only [List.foldl_cons, List.foldl_nil]
  exact searchQuery_nodup js now _ _ (searchQuery_nodup js now _ _ (searchQuery_nodup js now _ _ h))

theorem geckoDexId_cases {pool : GeckoPool} {d : String} (h : geckoDexId pool = .ok d) :
    d = "" ∨ d = "pumpfun" ∨ d = "raydium" := by
  unfold geckoDexId at h
  cases hv : pool.dexDataId with
  | str sid =>
    simp only [hv] at h
    split_ifs at h <;> simp only [pure, Except.pure, Except.ok.injEq] at h <;> simp [← h]
  | undefined =>
    simp only [hv, JSVal.truthy, pure, Except.pure] at h
    simp at h
    simp [← h]
  | null =>
    simp only [hv, JSVal.truthy, pure, Except.pure] at h
    simp at h
    simp [← h]
  | bool b =>
    simp only [hv] at h
    split_ifs at h
    simp only [pure, Except.pure, Except.ok.injEq] at h
    simp [← h]
  | num n =>
    simp only [hv] at h
    split_ifs at h
    simp only [pure, Except.pure, Except.ok.injEq] at h
    simp [← h]

theorem geckoDexId_of_other_dex {pool : GeckoPool} {sid : String}
    (hid : pool.dexDataId = JSVal.str sid) (h1 : includes sid "pump" = false)
    (h2 : includes sid "raydium" = false) : geckoDexId pool = .ok "" := by
  unfold geckoDexId
  rw [hid]
  simp only [h1, h2]
  split_ifs <;> first | rfl | contradiction

/-- The address of a listing of the GeckoTerminal callback is a string. -/
theorem geckoPoolCoin_address {js : Builtins} {pool : GeckoPool} {now : Int} {c : Coin}
    (h : geckoPoolCoin js pool now = .ok (some c)) : ∃ a : String, c.address = JSVal.str a := by
  unfold geckoPoolCoin at h
  cases hd : geckoDexId pool with
  | error e => simp [hd, bind, Except.bind] at h
  | ok dexId =>
    simp only [hd, bind, Except.bind] at h
    by_cases hempty : dexId = ""
    · simp [hempty, pure, Except.pure] at h
    · rw [if_neg hempty] at h
      cases hn : pool.name.or (JSVal.str "") with
      | str nm =>
        simp only [hn] at h
        cases hid : pool.id with
        | undefined =>
          simp only [hid, pure, Except.pure, Except.ok.injEq, Option.some.injEq] at h
          exact ⟨_, by rw [← h]⟩
        | null =>
          simp only [hid, pure, Except.pure, Except.ok.injEq, Option.some.injEq] at h
          exact ⟨_, by rw [← h]⟩
        | str sid =>
          simp only [hid, pure, Except.pure, Except.ok.injEq, Option.some.injEq] at h
          exact ⟨_, by rw [← h]⟩
        | bool b => simp [hid, pure, Except.pure, throw, throwThe, MonadExceptOf.throw] at h
        | num n => simp [hid, pure, Except.pure, throw, throwThe, MonadExceptOf.throw] at h
      | undefined => simp [hn, pure, Except.pure, throw, throwThe, MonadExceptOf.throw] at h
      | null => simp [hn, pure, Except.pure, throw, throwThe, MonadExceptOf.throw] at h
      | bool b => simp [hn, pure, Except.pure, throw, throwThe, MonadExceptOf.throw] at h
      | num n => simp [hn, pure, Except.pure, throw, throwThe, MonadExceptOf.throw] at h

theorem geckoPoolCoin_dexIsVenue {js : Builtins} {pool : GeckoPool} {now : Int} {c : Coin}
    (h : geckoPoolCoin js pool now = .ok (some c)) : dexIsVenue c := by
  obtain ⟨dexId, hd, hne, hdex, _⟩ := geckoPoolCoin_fields h
  rcases geckoDexId_cases hd with h0 | h1 | h2
  · exact absurd h0 hne
  · exact Or.inl (by rw [hdex, h1])
  · exact Or.inr (by rw [hdex, h2])

theorem geckoForEach_mem (js : Builtins) (now : Int) (pools : List GeckoPool)
    (coins : List Coin) (c : Coin) (hc : c ∈ geckoForEach js now coins pools) :
    c ∈ coins ∨ ∃ pool ∈ pools, geckoPoolCoin js pool now = .ok (some c) := by
  induction pools generalizing coins with
  | nil => exact Or.inl hc
  | cons pool pools ih =>
    unfold geckoForEach at hc
    cases hg : geckoPoolCoin js pool now with
    | error e =>
      simp only [hg] at hc
      exact Or.inl hc
    | ok r =>
      cases r with
      | none =>
        simp only [hg] at hc
        rcases ih _ hc with h | ⟨q, hq, he⟩
        · exact Or.inl h
        · exact Or.inr ⟨q, List.mem_cons_of_mem _ hq, he⟩
      | some x =>
        simp only [hg] at hc
        cases hf : coins.find? (fun y => y.address.strictEq x.address) with
        | some y =>
          simp only [hf] at hc
          rcases ih _ hc with h | ⟨q, hq, he⟩
          · exact Or.inl h
          · exact Or.inr ⟨q, List.mem_cons_of_mem _ hq, he⟩
        | none =>
          simp only [hf] at hc
          rcases ih _ hc with h | ⟨q, hq, he⟩
          · rcases List.mem_append.1 h with h | h
            · exact Or.inl h
            · rw [List.mem_singleton] at h
              subst h
              exact Or.inr ⟨pool, List.mem_cons_self _ _, hg⟩
          · exact Or.inr ⟨q, List.mem_cons_of_mem _ hq, he⟩

theorem geckoForEach_nodup (js : Builtins) (now : Int) (pools : List GeckoPool)
    (coins : List Coin) (h : (coins.map (fun c => c.address)).Nodup) :
    ((geckoForEach js now coins pools).map (fun c => c.address)).Nodup := by
  induction pools generalizing coins with
  | nil => exact h
  | cons pool pools ih =>
    unfold geckoForEach
    cases hg : geckoPoolCoin js pool now with
    | error e => exact h
    | ok r =>
      cases r with
      | none => exact ih coins h
      | some x =>
        cases hf : coins.find? (fun y => y.address.strictEq x.address) with
        | some y =>
          simp only [hf]
          exact ih coins h
        | none =>
          simp only [hf]
          apply ih
          rw [List.map_append, List.map_singleton]
          apply List.Nodup.append h (List.nodup_singleton _)
          intro a ha1 ha2
          rw [List.mem_singleton] at ha2
          subst ha2
          obtain ⟨y, hy, hya⟩ := List.mem_map.1 ha1
          obtain ⟨t, ht⟩ := geckoPoolCoin_address hg
          have hno := find_strictEq_eq_none.1 hf y hy
          rw [ht] at hno
          have hyes := (strictEq_str_iff y.address t).2 (by rw [hya, ht])
          rw [hyes] at hno
          exact absurd hno (by simp)

theorem geckoEndpoint_nodup (js : Builtins) (now : Int) (coins : List Coin)
    (data : Payload GeckoPool) (h : (coins.map (fun c => c.address)).Nodup) :
    ((geckoEndpoint js now coins data).map (fun c => c.address)).Nodup := by
  unfold geckoEndpoint
  split
  · exact geckoForEach_nodup js now _ coins h
  · exact h

theorem geckoEndpoint_mem (js : Builtins) (now : Int) (coins : List Coin)
    (data : Payload GeckoPool) (c : Coin) (hc : c ∈ geckoEndpoint js now coins data) :
    c ∈ coins ∨ ∃ pool ∈ payloadRecords data, geckoPoolCoin js pool now = .ok (some c) := by
  unfold geckoEndpoint at hc
  split at hc
  · simpa [payloadRecords] using geckoForEach_mem js now _ coins c hc
  · exact Or.inl hc

theorem fetchGeckoTerminal_nodup (js : Builtins) (now : Int)
    (newPools trendingPools : Payload GeckoPool) :
    ((fetchGeckoTerminal js now newPools trendingPools).map (fun c => c.address)).Nodup := by
  unfold fetchGeckoTerminal
  simp only [List.foldl_cons, List.foldl_nil]
  exact geckoEndpoint_nodup js now _ _ (geckoEndpoint_nodup js now _ _ (by simp))

/-- Every listing `fetchGeckoTerminal` returns was built by its callback from a pool
of one of its two payloads. -/
theorem fetchGeckoTerminal_mem (js : Builtins) (now : Int)
    (newPools trendingPools : Payload GeckoPool) (c : Coin)
    (hc : c ∈ fetchGeckoTerminal js now newPools trendingPools) :
    ∃ pool ∈ payloadRecords newPools ++ payloadRecords trendingPools,
      geckoPoolCoin js pool now = .ok (some c) := by
  unfold fetchGeckoTerminal at hc
  simp only [List.foldl_cons, List.foldl_nil] at hc
  rcases geckoEndpoint_mem js now _ _ c hc with h | ⟨q, hq, he⟩
  · rcases geckoEndpoint_mem js now _ _ c h with h | ⟨q, hq, he⟩
    · simp at h
    · exact ⟨q, by simp [hq], he⟩
  · exact ⟨q, by simp [hq], he⟩

theorem fetchPumpFun_eq_map (js : Builtins) (now : Int) (data : Payload PumpCoin) :
    fetchPumpFun js now data = (payloadRecords data).map (fun c => pumpFunCoin js c now) := by
  unfold fetchPumpFun payloadRecords
  split <;> simp_all

/-- The boosts phase pushes every qualifying pair: two pairs of one base token give
two listings with the same address. -/
theorem boostsPhase_keeps_duplicates :
    (boostsPhase exampleBuiltins 0
        (.ok (some [{ chainId := JSVal.str "solana", tokenAddress := JSVal.str "A" }]))
        (.ok (some [{ bareDexPair with baseTokenAddress := JSVal.str "A" },
          { bareDexPair with baseTokenAddress := JSVal.str "A",
                             dexId := JSVal.str "raydium" }]))).map
      (fun c => c.address) = [JSVal.str "A", JSVal.str "A"] := by
  decide

/-- C13, as stated, fails for `fetchPumpFun`: a payload that lists the mint `M`
twice is returned as two listings with the address `M`. -/
theorem fetchPumpFun_keeps_duplicates :
    (fetchPumpFun exampleBuiltins 0
        (.ok (some [barePumpCoin, { barePumpCoin with name := JSVal.str "again" }]))).map
      (fun c => c.address) = [JSVal.str "M", JSVal.str "M"] := by
  decide

/-- C13, amended: `fetchGeckoTerminal` returns no two listings with the same
address, over both of its payloads. The search phase of `fetchDexScreener` adds no
listing whose non-empty address is already collected, so when the listings of the
boosts phase have distinct non-empty addresses, so have those of the whole result.
`fetchPumpFun` returns one listing for each coin of its payload, in payload order,
and merges nothing. -/
theorem adapters_merge_by_address (js : Builtins) (now : Int) :
    (∀ newPools trendingPools : Payload GeckoPool,
      ((fetchGeckoTerminal js now newPools trendingPools).map (fun c => c.address)).Nodup) ∧
    (∀ (boosts : Payload BoostToken) (tokenData searchPump searchNew searchMeme : Payload DexPair),
      (nonEmptyAddresses (boostsPhase js now boosts tokenData)).Nodup →
      (nonEmptyAddresses
        (fetchDexScreener js now boosts tokenData searchPump searchNew searchMeme)).Nodup) ∧
    (∀ data : Payload PumpCoin,
      fetchPumpFun js now data = (payloadRecords data).map (fun c => pumpFunCoin js c now)) :=
  ⟨fun newPools trendingPools => fetchGeckoTerminal_nodup js now newPools trendingPools,
    fun boosts tokenData searchPump searchNew searchMeme h =>
      fetchDexScreener_nodup js now boosts tokenData searchPump searchNew searchMeme h,
    fun data => fetchPumpFun_eq_map js now data⟩

/-- C13, amended, at concrete payloads: with the boosts request rejected, three
search payloads that name the base token `A` four times and `B` once give the
addresses `A`, `B`; two GeckoTerminal payloads that hold the pool `solana_ABC` three
times give the address `ABC` once. -/
theorem adapters_merge_by_address_witness :
    (nonEmptyAddresses (boostsPhase exampleBuiltins 0 (.error "timeout") (.ok none))).Nodup ∧
    nonEmptyAddresses (fetchDexScreener exampleBuiltins 0 (.error "timeout") (.ok none)
        (.ok (some [{ bareDexPair with baseTokenAddress := JSVal.str "A" },
          { bareDexPair with baseTokenAddress := JSVal.str "A" }]))
        (.ok (some [{ bareDexPair with baseTokenAddress := JSVal.str "B" },
          { bareDexPair with baseTokenAddress := JSVal.str "A" }]))
        (.ok (some [{ bareDexPair with baseTokenAddress := JSVal.str "A" }]))) =
      [JSVal.str "A", JSVal.str "B"] ∧
    (nonEmptyAddresses (fetchDexScreener exampleBuiltins 0 (.error "timeout") (.ok none)
        (.ok (some [{ bareDexPair with baseTokenAddress := JSVal.str "A" },
          { bareDexPair with baseTokenAddress := JSVal.str "A" }]))
        (.ok (some [{ bareDexPair with baseTokenAddress := JSVal.str "B" },
          { bareDexPair with baseTokenAddress := JSVal.str "A" }]))
        (.ok (some [{ bareDexPair with baseTokenAddress := JSVal.str "A" }])))).Nodup ∧
    (fetchGeckoTerminal exampleBuiltins 0 (.ok (some [bareGeckoPool, bareGeckoPool]))
        (.ok (some [bareGeckoPool]))).map (fun c => c.address) = [JSVal.str "ABC"] :=
  ⟨by decide, by decide,
    (adapters_merge_by_address exampleBuiltins 0).2.1 (.error "timeout") (.ok none) _ _ _
      (by decide),
    by decide⟩

/-- C16: every listing an adapter returns has `dex` equal to `'pumpfun'` or
`'raydium'`, and so has every listing of a snapshot that `fetchAllData` stores from
the adapters' results when the listings stored before had. `fetchDexScreener` emits
a listing only for a pair of its payloads whose `chainId` is `'solana'` and whose
`dexId` is `'pumpfun'` or `'raydium'`; the GeckoTerminal callback emits none for a
pool whose dex id contains neither `'pump'` nor `'raydium'`. -/
theorem adapters_emit_venue_listings (js : Builtins) (now : Int) :
    (∀ (boosts : Payload BoostToken) (tokenData searchPump searchNew searchMeme : Payload DexPair),
      ∀ c ∈ fetchDexScreener js now boosts tokenData searchPump searchNew searchMeme,
        dexIsVenue c ∧
        ∃ p ∈ payloadRecords tokenData ++ payloadRecords searchPump ++
            payloadRecords searchNew ++ payloadRecords searchMeme,
          p.chainId = JSVal.str "solana" ∧
          (p.dexId = JSVal.str "pumpfun" ∨ p.dexId = JSVal.str "raydium") ∧
          c = processDexPair js p now) ∧
    (∀ newPools trendingPools : Payload GeckoPool,
      ∀ c ∈ fetchGeckoTerminal js now newPools trendingPools, dexIsVenue c) ∧
    (∀ (pool : GeckoPool) (sid : String), pool.dexDataId = JSVal.str sid →
      includes sid "pump" = false → includes sid "raydium" = false →
      geckoPoolCoin js pool now = .ok none) ∧
    (∀ data : Payload PumpCoin,
      ∀ c ∈ fetchPumpFun js now data, c.dex = JSVal.str "pumpfun") ∧
    (∀ (s : Cache) (t : Int) (boosts : Payload BoostToken)
      (tokenData searchPump searchNew searchMeme : Payload DexPair)
      (newPools trendingPools : Payload GeckoPool) (data : Payload PumpCoin),
      (∀ c ∈ s.pumpCoins, dexIsVenue c) →
      ∃ o, fetchAllData s t
          (.ok (fetchDexScreener js now boosts tokenData searchPump searchNew searchMeme))
          (.ok (fetchGeckoTerminal js now newPools trendingPools))
          (.ok (fetchPumpFun js now data)) = .ok o ∧
        (∀ c ∈ o.cache.pumpCoins, dexIsVenue c) ∧ ∀ c ∈ o.returned, dexIsVenue c) := by
  have hdex : ∀ (boosts : Payload BoostToken)
      (tokenData searchPump searchNew searchMeme : Payload DexPair),
      ∀ c ∈ fetchDexScreener js now boosts tokenData searchPump searchNew searchMeme,
        dexIsVenue c ∧
        ∃ p ∈ payloadRecords tokenData ++ payloadRecords searchPump ++
            payloadRecords searchNew ++ payloadRecords searchMeme,
          p.chainId = JSVal.str "solana" ∧
          (p.dexId = JSVal.str "pumpfun" ∨ p.dexId = JSVal.str "raydium") ∧
          c = processDexPair js p now := by
    intro boosts tokenData searchPump searchNew searchMeme c hc
    obtain ⟨p, hp, hq, he⟩ := fetchDexScreener_mem js now _ _ _ _ _ c hc
    obtain ⟨hchain, hvenue⟩ := (qualifies_iff p).1 hq
    refine ⟨?_, p, hp, hchain, hvenue, he⟩
    subst he
    exact hvenue
  have hgecko : ∀ newPools trendingPools : Payload GeckoPool,
      ∀ c ∈ fetchGeckoTerminal js now newPools trendingPools, dexIsVenue c := by
    intro newPools trendingPools c hc
    obtain ⟨pool, _, hg⟩ := fetchGeckoTerminal_mem js now newPools trendingPools c hc
    exact geckoPoolCoin_dexIsVenue hg
  have hpump : ∀ data : Payload PumpCoin,
      ∀ c ∈ fetchPumpFun js now data, c.dex = JSVal.str "pumpfun" := by
    intro data c hc
    rw [fetchPumpFun_eq_map] at hc
    obtain ⟨r, _, hr⟩ := List.mem_map.1 hc
    rw [← hr]
    rfl
  refine ⟨hdex, hgecko, ?_, hpump, ?_⟩
  · intro pool sid hid h1 h2
    unfold geckoPoolCoin
    rw [geckoDexId_of_other_dex hid h1 h2]
    rfl
  · intro s t boosts tokenData searchPump searchNew searchMeme newPools trendingPools data hs
    by_cases hcond : t - s.lastFetch < CACHE_DURATION ∧ s.pumpCoins.length > 0
    · refine ⟨{ returned := s.pumpCoins, cache := s, invoked := [] }, ?_, hs, hs⟩
      unfold fetchAllData
      rw [if_pos hcond]
      rfl
    · have hall : ∀ c ∈ mergeSortCap
          (fetchDexScreener js now boosts tokenData searchPump searchNew searchMeme)
          (fetchGeckoTerminal js now newPools trendingPools) (fetchPumpFun js now data),
          dexIsVenue c := by
        intro c hc
        have hmem := mem_of_mem_mergeSortCap hc
        rcases List.mem_append.1 hmem with h | h
        · rcases List.mem_append.1 h with h | h
          · exact (hdex _ _ _ _ _ c h).1
          · exact hgecko _ _ c h
        · exact Or.inl (hpump _ c h)
      have hfetch := refresh_eq t
        (.ok (fetchDexScreener js now boosts tokenData searchPump searchNew searchMeme))
        (.ok (fetchGeckoTerminal js now newPools trendingPools))
        (.ok (fetchPumpFun js now data))
      refine ⟨{ returned := mergeSortCap
                  (fetchDexScreener js now boosts tokenData searchPump searchNew searchMeme)
                  (fetchGeckoTerminal js now newPools trendingPools) (fetchPumpFun js now data)
                cache :=
                  { pumpCoins := mergeSortCap
                      (fetchDexScreener js now boosts tokenData searchPump searchNew searchMeme)
                      (fetchGeckoTerminal js now newPools trendingPools)
                      (fetchPumpFun js now data)
                    lastFetch := t }
                invoked := [Adapter.fetchDexScreener, Adapter.fetchGeckoTerminal,
                  Adapter.fetchPumpFun] }, ?_, hall, hall⟩
      unfold fetchAllData
      rw [if_neg hcond]
      exact hfetch

/-- C16 at concrete payloads, from the initial state: pairs on another chain or
another dex and a pool of the dex `orca` are passed over, and the stored snapshot
holds listings of `raydium` and `pumpfun` only. -/
theorem adapters_emit_venue_listings_witness :
    (∀ c ∈ Cache.initial.pumpCoins, dexIsVenue c) ∧
    (fetchDexScreener exampleBuiltins 0 (.error "timeout") (.ok none)
        (.ok (some [{ bareDexPair with baseTokenAddress := JSVal.str "A",
                                        chainId := JSVal.str "ethereum" },
          { bareDexPair with baseTokenAddress := JSVal.str "B", dexId := JSVal.str "orca" },
          { bareDexPair with baseTokenAddress := JSVal.str "C",
                             dexId := JSVal.str "raydium" }]))
        (.ok none) (.ok none)).map (fun c => (c.address, c.dex)) =
      [(JSVal.str "C", JSVal.str "raydium")] ∧
    geckoPoolCoin exampleBuiltins { bareGeckoPool with dexDataId := JSVal.str "orca" } 0 =
      .ok none ∧
    ∃ o, fetchAllData Cache.initial 0
        (.ok (fetchDexScreener exampleBuiltins 0 (.error "timeout") (.ok none)
          (.ok (some [{ bareDexPair with baseTokenAddress := JSVal.str "A",
                                          chainId := JSVal.str "ethereum" },
            { bareDexPair with baseTokenAddress := JSVal.str "B", dexId := JSVal.str "orca" },
            { bareDexPair with baseTokenAddress := JSVal.str "C",
                               dexId := JSVal.str "raydium" }]))
          (.ok none) (.ok none)))
        (.ok (fetchGeckoTerminal exampleBuiltins 0
          (.ok (some [{ bareGeckoPool with dexDataId := JSVal.str "orca" }, bareGeckoPool]))
          (.error "timeout")))
        (.ok (fetchPumpFun exampleBuiltins 0 (.ok (some [barePumpCoin])))) = .ok o ∧
      (∀ c ∈ o.cache.pumpCoins, dexIsVenue c) ∧ ∀ c ∈ o.returned, dexIsVenue c :=
  ⟨by simp [Cache.initial], by decide,
    (adapters_emit_venue_listings exampleBuiltins 0).2.2.1 _ "orca" rfl (by decide) (by decide),
    (adapters_emit_venue_listings exampleBuiltins 0).2.2.2.2 Cache.initial 0 _ _ _ _ _ _ _ _
      (by simp [Cache.initial])⟩

/-! ## Stability of the sort -/

/-- The sort moves no entry past another entry with the same key: the entries of
one key are, after the sort, the ones before it in the same order. -/
theorem sortCoins_filter_key (l : List Coin) (k : WithTop ℚ) :
    (sortCoins l).filter (fun c => decide (ageOrInfinity c.age = k)) =
      l.filter (fun c => decide (ageOrInfinity c.age = k)) := by
  have hpw : (l.filter (fun c => decide (ageOrInfinity c.age = k))).Pairwise notAfter := by
    rw [List.pairwise_iff_forall_sublist]
    intro a b hab
    have ha : a ∈ l.filter (fun c => decide (ageOrInfinity c.age = k)) :=
      hab.subset (by simp)
    have hb : b ∈ l.filter (fun c => decide (ageOrInfinity c.age = k)) :=
      hab.subset (by simp)
    simp only [List.mem_filter, decide_eq_true_eq] at ha hb
    rw [notAfter_iff, ha.2, hb.2]
  have hsub : (l.filter (fun c => decide (ageOrInfinity c.age = k))).Sublist (sortCoins l) :=
    List.sublist_insertionSort hpw (List.filter_sublist _)
  have hsub2 := hsub.filter (fun c => decide (ageOrInfinity c.age = k))
  rw [List.filter_filter] at hsub2
  simp only [Bool.and_self] at hsub2
  have hlen : ((sortCoins l).filter (fun c => decide (ageOrInfinity c.age = k))).length =
      (l.filter (fun c => decide (ageOrInfinity c.age = k))).length :=
    ((sortCoins_perm l).filter _).length_eq
  exact (hsub2.eq_of_length hlen.symm).symm

/-- Two entries of a refresh result with the same key stand in the order they have
among the first occurrences of the concatenation. -/
theorem mergeSortCap_pair_stable (dexCoins geckoCoins pumpCoins_ : List Coin) (a b : Coin)
    (hab : [a, b].Sublist (mergeSortCap dexCoins geckoCoins pumpCoins_))
    (hkey : ageOrInfinity a.age = ageOrInfinity b.age) :
    [a, b].Sublist (mergeCoins (dexCoins ++ geckoCoins ++ pumpCoins_)) := by
  have h1 : [a, b].Sublist (sortCoins (mergeCoins (dexCoins ++ geckoCoins ++ pumpCoins_))) :=
    hab.trans (List.take_sublist _ _)
  have h2 := h1.filter (fun c => decide (ageOrInfinity c.age = ageOrInfinity b.age))
  rw [sortCoins_filter_key] at h2
  have h3 : [a, b].filter (fun c => decide (ageOrInfinity c.age = ageOrInfinity b.age)) =
      [a, b] := by
    simp [List.filter_cons, hkey]
  rw [h3] at h2
  exact h2.trans (List.filter_sublist _)

/-- C18: for every triple of adapter outputs, two entries of the refresh result
that have the same sort key (equal ages, or both of unknown age) stand in the
order they have among the first occurrences of DexScreener ++ GeckoTerminal ++
pump.fun, hence in the concatenation; and the result is `mergeSortCap` of the
three outputs, the same at every time `now`. -/
theorem fetchAllData_sort_is_stable (now : Int) (dexCoins geckoCoins pumpCoins_ : List Coin) :
    ∃ o, refresh now (.ok dexCoins) (.ok geckoCoins) (.ok pumpCoins_) = .ok o ∧
      (∀ a b : Coin, [a, b].Sublist o.returned →
        (a.age = b.age ∨ ageOrInfinity a.age = ageOrInfinity b.age) →
        [a, b].Sublist (mergeCoins (dexCoins ++ geckoCoins ++ pumpCoins_)) ∧
        [a, b].Sublist (dexCoins ++ geckoCoins ++ pumpCoins_)) ∧
      o.returned = mergeSortCap dexCoins geckoCoins pumpCoins_ ∧
      ∀ now' : Int, ∃ o', refresh now' (.ok dexCoins) (.ok geckoCoins) (.ok pumpCoins_) = .ok o' ∧
        o'.returned = o.returned := by
  refine ⟨_, refresh_eq now _ _ _, ?_, rfl, fun now' => ⟨_, refresh_eq now' _ _ _, rfl⟩⟩
  intro a b hab hkey
  have hk : ageOrInfinity a.age = ageOrInfinity b.age := by
    rcases hkey with h | h
    · rw [h]
    · exact h
  have h1 := mergeSortCap_pair_stable dexCoins geckoCoins pumpCoins_ a b hab hk
  exact ⟨h1, h1.trans (mergeCoins_spec _).2.2.2⟩

/-- C18 at concrete outputs: DexScreener returns N1 of unknown age, GeckoTerminal
returns K aged 5, pump.fun returns N2 of unknown age. The result is K, N1, N2: the
two listings of unknown age keep the order DexScreener, pump.fun. -/
theorem fetchAllData_sort_is_stable_witness :
    ∃ o, refresh 0 (.ok [sampleCoin "N1" none]) (.ok [sampleCoin "K" (some (JSNum.fin 5))])
        (.ok [sampleCoin "N2" none]) = .ok o ∧
      o.returned =
        [sampleCoin "K" (some (JSNum.fin 5)), sampleCoin "N1" none, sampleCoin "N2" none] ∧
      [sampleCoin "N1" none, sampleCoin "N2" none].Sublist o.returned ∧
      [sampleCoin "N1" none, sampleCoin "N2" none].Sublist
        ([sampleCoin "N1" none] ++ [sampleCoin "K" (some (JSNum.fin 5))] ++
          [sampleCoin "N2" none]) := by
  obtain ⟨o, ho, hst, hret, _⟩ := fetchAllData_sort_is_stable 0 [sampleCoin "N1" none]
    [sampleCoin "K" (some (JSNum.fin 5))] [sampleCoin "N2" none]
  have hval : mergeSortCap [sampleCoin "N1" none] [sampleCoin "K" (some (JSNum.fin 5))]
      [sampleCoin "N2" none] =
      [sampleCoin "K" (some (JSNum.fin 5)), sampleCoin "N1" none, sampleCoin "N2" none] := by
    decide
  have hsub : [sampleCoin "N1" none, sampleCoin "N2" none].Sublist o.returned := by
    rw [hret, hval]
    exact List.Sublist.cons _ (List.Sublist.refl _)
  exact ⟨o, ho, hret.trans hval, hsub, (hst _ _ hsub (Or.inl rfl)).2⟩

/-! ## `fetchJSON`: what the retry loop does -/

/-- The whole behaviour of `doRequest`: started at `attempt ≤ retries`, it makes
the requests `attempt, ..., n` for some `n ≤ retries`; every request before `n` failed
in a retryable way; and request `n` settles the promise: with its parsed value, or
with its failure, which happens at `n = retries` or, for a compressed body that does
not parse, at any `n`. -/
theorem doRequest_spec {α : Type} (parse : String → Except String α) (retries : Nat)
    (outcomes : Nat → Attempt) (attempt : Nat) (h : attempt ≤ retries) :
    ∃ n, attempt ≤ n ∧ n ≤ retries ∧
      (doRequest parse retries outcomes attempt).requests = n + 1 ∧
      (∀ k, attempt ≤ k → k < n → (outcomes k).retryable parse) ∧
      (outcomes n).settles parse retries n (doRequest parse retries outcomes attempt).settled := by
  generalize hd : retries - attempt = d
  induction d generalizing attempt with
  | zero =>
    have heq : attempt = retries := by omega
    have hlt : ¬ attempt < retries := by omega
    refine ⟨attempt, le_refl _, h, ?_, fun k hk1 hk2 => absurd hk2 (by omega), ?_⟩
    · rw [doRequest]
      cases ho : outcomes attempt with
      | transportError e => simp [hlt]
      | response gzip data =>
        cases gzip <;> cases hp : parse data <;> simp [hp, hlt]
    · rw [doRequest]
      cases ho : outcomes attempt with
      | transportError e => simp [hlt, Attempt.settles, heq]
      | response gzip data =>
        cases gzip <;> cases hp : parse data <;> simp [hp, hlt, Attempt.settles, heq]
  | succ d ih =>
    have hlt : attempt < retries := by omega
    obtain ⟨n, hn1, hn2, hreq, hretry, hset⟩ := ih (attempt + 1) (by omega) (by omega)
    have hstay : ∀ r : FetchResult α, r.requests = attempt + 1 →
        (outcomes attempt).settles parse retries attempt r.settled →
        doRequest parse retries outcomes attempt = r →
        ∃ n, attempt ≤ n ∧ n ≤ retries ∧
          (doRequest parse retries outcomes attempt).requests = n + 1 ∧
          (∀ k, attempt ≤ k → k < n → (outcomes k).retryable parse) ∧
          (outcomes n).settles parse retries n
            (doRequest parse retries outcomes attempt).settled := by
      intro r hr hs he
      exact ⟨attempt, le_refl _, h, by rw [he, hr],
        fun k hk1 hk2 => absurd hk2 (by omega), by rw [he]; exact hs⟩
    have hgo : (outcomes attempt).retryable parse →
        doRequest parse retries outcomes attempt =
          doRequest parse retries outcomes (attempt + 1) →
        ∃ n, attempt ≤ n ∧ n ≤ retries ∧
          (doRequest parse retries outcomes attempt).requests = n + 1 ∧
          (∀ k, attempt ≤ k → k < n → (outcomes k).retryable parse) ∧
          (outcomes n).settles parse retries n
            (doRequest parse retries outcomes attempt).settled := by
      intro hr he
      refine ⟨n, by omega, hn2, by rw [he, hreq], ?_, by rw [he]; exact hset⟩
      intro k hk1 hk2
      by_cases hk : k = attempt
      · rw [hk]
        exact hr
      · exact hretry k (by omega) hk2
    cases ho : outcomes attempt with
    | transportError e =>
      apply hgo
      · rw [ho]
        trivial
      · rw [doRequest]
        simp [ho, hlt]
    | response gzip data =>
      cases hp : parse data with
      | ok v =>
        apply hstay { settled := .ok v, requests := attempt + 1 } rfl
        · rw [ho]
          simp [Attempt.settles, hp]
        · rw [doRequest]
          cases gzip <;> simp [ho, hp]
      | error e =>
        cases gzip with
        | true =>
          apply hstay { settled := .error (FetchError.parseException e)
                        requests := attempt + 1 } rfl
          · rw [ho]
            simp [Attempt.settles, hp]
          · rw [doRequest]
            simp [ho, hp]
        | false =>
          apply hgo
          · rw [ho]
            exact ⟨rfl, e, hp⟩
          · rw [doRequest]
            simp [ho, hp, hlt]

/-- C14: a compressed body that does not parse is not retried. With `retries = 2`
and a first response that is gzip-encoded and is not JSON, `fetchJSON` rejects with
the exception of `JSON.parse` after one request, although two retries are left and
the next request would have succeeded; the same body without compression is retried
and `fetchJSON` resolves with the data of the second request. -/
theorem fetchJSON_gzip_parse_failure_not_retried :
    fetchJSON exampleParse 2
        (fun k => if k = 0 then Attempt.response true "<html>" else Attempt.response true "1") =
      { settled := .error (FetchError.parseException "Unexpected token < in JSON at position 0")
        requests := 1 } ∧
    fetchJSON exampleParse 2
        (fun k => if k = 0 then Attempt.response false "<html>" else Attempt.response true "1") =
      { settled := .ok (JSVal.num (JSNum.fin 1)), requests := 2 } := by
  constructor
  · rw [fetchJSON, doRequest]
    simp [exampleParse]
  · rw [fetchJSON, doRequest]
    simp only [if_true]
    rw [doRequest]
    simp [exampleParse]

/-! ## Numeric fields -/

theorem JSNum.orZero_nan : JSNum.nan.orZero = JSNum.fin 0 := rfl

/-- What holds of the numeric fields: those written `parseFloat(x) || 0` (the price
in all three normalisers, the market cap in `processDexPair` and the GeckoTerminal
mapping, the GeckoTerminal liquidity) are finite numbers, 0 when `parseFloat` gives
`NaN`; those written `x ? parseFloat(x) : 0` are 0 when the raw field is falsy; and
the pump.fun mapping emits the constants 0 for `volume24h` and `liquidity`. -/
theorem numeric_fields_defaults (js : Builtins) (now : Int) :
    (∀ p : DexPair,
      (∃ q : ℚ, (processDexPair js p now).price = JSNum.fin q) ∧
      (∃ q : ℚ, (processDexPair js p now).mcap = JSVal.num (JSNum.fin q)) ∧
      (p.priceUsd.parseFloat js = JSNum.nan → (processDexPair js p now).price = JSNum.fin 0) ∧
      (p.fdv.parseFloat js = JSNum.nan →
        (processDexPair js p now).mcap = JSVal.num (JSNum.fin 0)) ∧
      (p.volumeH24.truthy = false → (processDexPair js p now).volume24h = JSNum.fin 0) ∧
      (p.liquidityUsd.truthy = false → (processDexPair js p now).liquidity = JSNum.fin 0) ∧
      (p.priceChangeH24.truthy = false →
        (processDexPair js p now).change24h = JSVal.num (JSNum.fin 0))) ∧
    (∀ (pool : GeckoPool) (c : Coin), geckoPoolCoin js pool now = .ok (some c) →
      (∃ q : ℚ, c.price = JSNum.fin q) ∧
      (∃ q : ℚ, c.mcap = JSVal.num (JSNum.fin q)) ∧
      (∃ q : ℚ, c.liquidity = JSNum.fin q) ∧
      (pool.volumeUsdH24.truthy = false → c.volume24h = JSNum.fin 0) ∧
      (pool.priceChangePercentageH24.truthy = false →
        c.change24h = JSVal.num (JSNum.fin 0))) ∧
    (∀ c : PumpCoin,
      (∃ q : ℚ, (pumpFunCoin js c now).price = JSNum.fin q) ∧
      (pumpFunCoin js c now).volume24h = JSNum.fin 0 ∧
      (pumpFunCoin js c now).liquidity = JSNum.fin 0 ∧
      (c.usd_market_cap.truthy = false →
        (pumpFunCoin js c now).mcap = JSVal.num (JSNum.fin 0))) := by
  refine ⟨fun p => ⟨?_, ?_, ?_, ?_, ?_, ?_, ?_⟩, fun pool c h => ?_, fun c => ⟨?_, rfl, rfl, ?_⟩⟩
  · exact JSNum.orZero_eq_fin _
  · obtain ⟨q, hq⟩ := JSNum.orZero_eq_fin (p.fdv.parseFloat js)
    exact ⟨q, by simp [processDexPair, hq]⟩
  · intro hn
    simp [processDexPair, hn, JSNum.orZero_nan]
  · intro hn
    simp [processDexPair, hn, JSNum.orZero_nan]
  · intro hf
    simp [processDexPair, hf]
  · intro hf
    simp [processDexPair, hf]
  · intro hf
    simp [processDexPair, hf]
  · obtain ⟨_, _, _, _, hm, _, _, _, _, hprice, hvol, hliq, hchg⟩ := geckoPoolCoin_fields h
    refine ⟨?_, ?_, ?_, ?_, ?_⟩
    · rw [hprice]
      exact JSNum.orZero_eq_fin _
    · obtain ⟨q, hq⟩ := JSNum.orZero_eq_fin (pool.fdv_usd.parseFloat js)
      exact ⟨q, by rw [hm, hq]⟩
    · rw [hliq]
      exact JSNum.orZero_eq_fin _
    · intro hf
      simp [hvol, hf]
    · intro hf
      simp [hchg, hf]
  · exact JSNum.orZero_eq_fin _
  · intro hf
    simp [pumpFunCoin, JSVal.or, hf]

/-- C15: the numeric fields are not all finite numbers. A pump.fun listing has no
`change24h` at all (`undefined`), and a pump.fun `usd_market_cap` that is the string
`'n/a'` is emitted as that string. A DexScreener pair whose `volume.h24`,
`liquidity.usd` and `priceChange.h24` are the string `'n/a'` is emitted with
`volume24h`, `liquidity` and `change24h` equal to `NaN`, and so are the `volume24h`
and `change24h` of such a GeckoTerminal pool. -/
theorem numeric_fields_not_always_finite :
    (pumpFunCoin exampleBuiltins barePumpCoin 0).change24h = JSVal.undefined ∧
    (pumpFunCoin exampleBuiltins
        { barePumpCoin with usd_market_cap := JSVal.str "n/a" } 0).mcap = JSVal.str "n/a" ∧
    (processDexPair exampleBuiltins
        { bareDexPair with volumeH24 := JSVal.str "n/a", liquidityUsd := JSVal.str "n/a",
                           priceChangeH24 := JSVal.str "n/a" } 0).volume24h = JSNum.nan ∧
    (processDexPair exampleBuiltins
        { bareDexPair with volumeH24 := JSVal.str "n/a", liquidityUsd := JSVal.str "n/a",
                           priceChangeH24 := JSVal.str "n/a" } 0).liquidity = JSNum.nan ∧
    (processDexPair exampleBuiltins
        { bareDexPair with volumeH24 := JSVal.str "n/a", liquidityUsd := JSVal.str "n/a",
                           priceChangeH24 := JSVal.str "n/a" } 0).change24h =
      JSVal.num JSNum.nan ∧
    (geckoPoolCoin exampleBuiltins
        { bareGeckoPool with volumeUsdH24 := JSVal.str "n/a",
                             priceChangePercentageH24 := JSVal.str "n/a" } 0).map
        (fun r => r.map (fun c => (c.volume24h, c.change24h))) =
      .ok (some (JSNum.nan, JSVal.num JSNum.nan)) := by
  decide

end BTrade
